import Mathlib

/-!
# k8s-get plugin: guest memory arena, marshalling and handlers

A shallow embedding of `src/k8s/k8s-get/main.go`.

* Go `uint32` / `uint64` values are natural numbers; every arithmetic
  operation of the source is followed by the reduction modulo `2^32` or
  `2^64` that the machine performs. The target is 32-bit WebAssembly:
  `uintptr` and `int` have 32 bits.
* The two package-level variables `memoryBase` and `memoryOffset` and the
  linear memory of the instance form the explicit state that every function
  takes and returns. Linear memory is a map from addresses to bytes; an
  `unsafe` pointer conversion is the address itself, address 0 is the nil
  pointer, and no view or copy reaches past the 32-bit address space. The
  size of the instance's memory below that bound does not occur in the source
  and is not modelled.
* A call that stops in a Go run-time panic does not return a value; the
  functions that can panic return an `Outcome`.
* `encoding/json` is an external dependency: the handlers take the library
  as a parameter (`JSONLib`), and the theorems on the handlers hold for every
  library. `sampleJSON` is an executable instance, written after the
  documentation of `encoding/json`, on which the handlers are run for concrete
  requests; the theorem on inputs that are not objects is about the decoder
  and is stated for this instance.
-/

namespace K8sGet

/-! ## State -/

/-- One byte of linear memory. -/
abbrev Byte := UInt8

/-- Guest state: the package-level variables `memoryBase` and `memoryOffset`
(both `uint32`) and the contents of linear memory, indexed by address. -/
structure State where
  memoryBase : Nat
  memoryOffset : Nat
  memory : Nat → Byte

/-- State of a fresh instance: `memoryBase = 0x1000`, `memoryOffset = 0`. -/
def initState (memory : Nat → Byte) : State :=
  { memoryBase := 0x1000, memoryOffset := 0, memory := memory }

/-- Result of a call: either it returns a value and leaves a state, or it
stops in a run-time panic, in which case `st` is the state reached when
execution stopped. -/
inductive Outcome (α : Type) where
  | ret (val : α) (st : State)
  | abort (st : State)

/-! ## Arena -/

/-- Source `allocate`: `ptr := memoryBase + memoryOffset; memoryOffset += size;
return ptr`, in `uint32` arithmetic. -/
def allocate (size : Nat) (st : State) : Nat × State :=
  let ptr := (st.memoryBase + st.memoryOffset) % 2 ^ 32
  (ptr, { st with memoryOffset := (st.memoryOffset + size) % 2 ^ 32 })

/-- Source `deallocate`: the body is empty. -/
def deallocate (_ptr _size : Nat) (st : State) : State := st

/-- The pointer that the next reservation returns: `memoryBase + memoryOffset`
in `uint32` arithmetic. -/
def arenaPointer (st : State) : Nat :=
  (st.memoryBase + st.memoryOffset) % 2 ^ 32

/-- A sequence of `allocate` calls; every call is recorded as the pair
(returned pointer, requested size). -/
def allocateAll : List Nat → State → List (Nat × Nat) × State
  | [], st => ([], st)
  | size :: rest, st =>
    let r := allocate size st
    let rs := allocateAll rest r.2
    ((r.1, size) :: rs.1, rs.2)

/-- Two half-open ranges `[p, p + n)`, given as (pointer, size), share an
address. -/
def Overlaps (r s : Nat × Nat) : Prop :=
  max r.1 s.1 < min (r.1 + r.2) (s.1 + s.2)

instance (r s : Nat × Nat) : Decidable (Overlaps r s) :=
  inferInstanceAs (Decidable (max r.1 s.1 < min (r.1 + r.2) (s.1 + s.2)))

/-- Each range starts at or after the end of the range issued before it. -/
def Ascending (ranges : List (Nat × Nat)) : Prop :=
  List.Chain' (fun r s => r.1 + r.2 ≤ s.1) ranges

/-- No two ranges of the list share an address. -/
def PairwiseDisjoint (ranges : List (Nat × Nat)) : Prop :=
  List.Pairwise (fun r s => ¬ Overlaps r s) ranges

/-! ## Marshalling -/

/-- The `len` bytes of memory starting at address `ptr`. -/
def readBytes (memory : Nat → Byte) (ptr len : Nat) : List Byte :=
  (List.range len).map (fun i => memory (ptr + i))

/-- Memory after `data` has been stored at `ptr`, `ptr + 1`, ... -/
def writeBytes (memory : Nat → Byte) (ptr : Nat) (data : List Byte) : Nat → Byte :=
  fun a => if ptr ≤ a then (data[a - ptr]?).getD (memory a) else memory a

/-- Conversion `int(x)` of a `uint64` on the 32-bit target: the low 32 bits,
read as a signed number. -/
def toInt32 (x : Nat) : Int :=
  if x % 2 ^ 32 < 2 ^ 31 then (x % 2 ^ 32 : Nat) else (x % 2 ^ 32 : Nat) - 2 ^ 32

/-- Source `readInput`: `ptr := uintptr(inputPtr); len := int(inputLen);
unsafe.Slice((*byte)(unsafe.Pointer(ptr)), len)`. `uintptr` and `int` are 32
bits wide. `unsafe.Slice` panics (`none`) when `len` is negative, when the
pointer is nil with `len` not zero, and when the `len` bytes from `ptr` on do
not fit in the address space (`len out of range`); otherwise the result is the
view of `len` bytes at `ptr`. -/
def readInput (inputPtr inputLen : Nat) (st : State) : Option (List Byte) :=
  let ptr := inputPtr % 2 ^ 32
  let len := toInt32 inputLen
  if len < 0 then none
  else if ptr = 0 ∧ len ≠ 0 then none
  else if 2 ^ 32 < ptr + len.toNat then none
  else some (readBytes st.memory ptr len.toNat)

/-- The expression `uint64(ptr)<<32 | uint64(size)` of `allocateAndReturn`. -/
def packWord (ptr size : Nat) : Nat :=
  ((ptr <<< 32) % 2 ^ 64) ||| size

/-- Source `allocateAndReturn`. `data` is the byte content of the string
argument. `size := uint32(len(dataBytes))`, `ptr := allocate(size)`; the
destination is the address `ptr` seen as a `*[1024]byte`. After `allocate` has
run the call stops without returning in three cases: `ptr` is 0, so that
`dest` is a nil array pointer and `dest[:size]` panics; `size` exceeds 1024, so
that `dest[:size]` is out of range; the `size` bytes from `ptr` on pass the end
of the 32-bit address space, so that they cannot be stored. Otherwise `copy`
stores `min(size, len(dataBytes))` bytes and the packed word is returned. -/
def allocateAndReturn (data : List Byte) (st : State) : Outcome Nat :=
  let size := data.length % 2 ^ 32
  let r := allocate size st
  if r.1 = 0 ∨ 1024 < size ∨ 2 ^ 32 < r.1 + size then Outcome.abort r.2
  else Outcome.ret (packWord r.1 size)
    { r.2 with memory := writeBytes r.2.memory r.1 (data.take size) }

/-! ## JSON values and the JSON library -/

/-- Values held by a Go `interface{}` in this program: what `json.Unmarshal`
stores in a `map[string]interface{}` (nil, bool, float64, string,
`[]interface{}`, `map[string]interface{}`) and what the handlers build. A Go
map is the list of its entries; text is a `String`. -/
inductive JSONValue where
  | null
  | bool (b : Bool)
  | number (f : Float)
  | string (s : String)
  | array (items : List JSONValue)
  | object (fields : List (String × JSONValue))

/-- The two functions of `encoding/json` that the program calls.
`Unmarshal input` is `json.Unmarshal(input, &request)` for a nil
`request map[string]interface{}`: an error, or the map left in `request`.
`Marshal v` is `json.Marshal(v)`: an error, or the bytes. -/
structure JSONLib where
  Unmarshal : List Byte → Except String (List (String × JSONValue))
  Marshal : JSONValue → Except String (List Byte)

/-! ## Handlers -/

/-- The map built by `respondError`. -/
def errorResponse (message : String) : JSONValue :=
  JSONValue.object [("status", JSONValue.string "error"), ("error", JSONValue.string message)]

/-- The map built by `handle_k8s_get` for a request with name `nameStr`;
`fmt.Sprintf("Hello %s!", nameStr)` is the concatenation. -/
def successResponse (nameStr : String) : JSONValue :=
  JSONValue.object [("status", JSONValue.string "success"),
    ("message", JSONValue.string ("Hello " ++ nameStr ++ "!")),
    ("name", JSONValue.string nameStr)]

/-- The map built by `handle_status`. -/
def statusResponse : JSONValue :=
  JSONValue.object [("status", JSONValue.string "healthy"),
    ("plugin", JSONValue.string "k8s-get"),
    ("version", JSONValue.string "1.0.1"),
    ("endpoints", JSONValue.array [JSONValue.string "/k8s"])]

/-- Source `respondError`: `jsonBytes, _ := json.Marshal(response)`; the
error is dropped, so a failed `Marshal` leaves `jsonBytes` nil. -/
def respondError (lib : JSONLib) (message : String) (st : State) : Outcome Nat :=
  match lib.Marshal (errorResponse message) with
  | Except.ok jsonBytes => allocateAndReturn jsonBytes st
  | Except.error _ => allocateAndReturn [] st

/-- Source `respondJSON`. -/
def respondJSON (lib : JSONLib) (data : JSONValue) (st : State) : Outcome Nat :=
  match lib.Marshal data with
  | Except.error err => respondError lib ("JSON marshal error: " ++ err) st
  | Except.ok jsonBytes => allocateAndReturn jsonBytes st

/-- Source `handle_k8s_get` (exported as `handle_k8s`). -/
def handle_k8s_get (lib : JSONLib) (inputPtr inputLen : Nat) (st : State) : Outcome Nat :=
  match readInput inputPtr inputLen st with
  | none => Outcome.abort st
  | some input =>
    match lib.Unmarshal input with
    | Except.error _ => respondError lib "Invalid JSON input" st
    | Except.ok request =>
      match request.lookup "name" with
      | none => respondError lib "Missing 'name' parameter" st
      | some name =>
        match name with
        | JSONValue.string nameStr => respondJSON lib (successResponse nameStr) st
        | _ => respondError lib "Name must be a string" st

/-- Source `handle_status`: the arguments are not used. -/
def handle_status (lib : JSONLib) (_inputPtr _inputLen : Nat) (st : State) : Outcome Nat :=
  respondJSON lib statusResponse st

/-! ## A reference instance of the JSON library -/

/-- Bytes of an ASCII text. -/
def asciiBytes (s : String) : List Byte :=
  s.data.map (fun c => UInt8.ofNat c.toNat)

/-- Lower-case hexadecimal digit. -/
def hexDigit (n : Nat) : Char :=
  if n < 10 then Char.ofNat (48 + n) else Char.ofNat (87 + n)

/-- Bytes that `json.Marshal` writes for one character of a string: the two
character escapes, `\u00XX` for control characters and for `<`, `>`, `&`,
and for the line separators U+2028 and U+2029, the UTF-8 encoding
otherwise. -/
def encodeChar (c : Char) : List Byte :=
  if c = '"' then asciiBytes "\\\""
  else if c = '\\' then asciiBytes "\\\\"
  else if c = '\n' then asciiBytes "\\n"
  else if c = '\r' then asciiBytes "\\r"
  else if c = '\t' then asciiBytes "\\t"
  else if c = Char.ofNat 8 then asciiBytes "\\b"
  else if c = Char.ofNat 12 then asciiBytes "\\f"
  else if c.toNat < 32 ∨ c = '<' ∨ c = '>' ∨ c = '&' then
    asciiBytes "\\u00" ++ asciiBytes (String.mk [hexDigit (c.toNat / 16), hexDigit (c.toNat % 16)])
  else if c.toNat = 0x2028 then asciiBytes "\\u2028"
  else if c.toNat = 0x2029 then asciiBytes "\\u2029"
  else String.utf8EncodeChar c

/-- A quoted JSON string. -/
def encodeString (s : String) : List Byte :=
  asciiBytes "\"" ++ s.data.flatMap encodeChar ++ asciiBytes "\""

/-- Order of map keys in the output of `json.Marshal`. -/
def keyLt : List Char → List Char → Bool
  | [], [] => false
  | [], _ :: _ => true
  | _ :: _, [] => false
  | a :: as, b :: bs => if a.toNat < b.toNat then true else if b.toNat < a.toNat then false else keyLt as bs

/-- Insertion of one entry into a list of entries sorted by key. -/
def insertField (e : String × List Byte) : List (String × List Byte) → List (String × List Byte)
  | [] => [e]
  | f :: fs => if keyLt f.1.data e.1.data then f :: insertField e fs else e :: f :: fs

/-- Items separated by commas. -/
def joinComma : List (List Byte) → List Byte
  | [] => []
  | [x] => x
  | x :: y :: rest => x ++ asciiBytes "," ++ joinComma (y :: rest)

mutual
/-- Compact JSON text of a value, object keys sorted, as `json.Marshal`
writes it. Numbers are outside the fragment (`none`). -/
def encodeValue : JSONValue → Option (List Byte)
  | JSONValue.null => some (asciiBytes "null")
  | JSONValue.bool true => some (asciiBytes "true")
  | JSONValue.bool false => some (asciiBytes "false")
  | JSONValue.number _ => none
  | JSONValue.string s => some (encodeString s)
  | JSONValue.array items =>
    match encodeItems items with
    | some texts => some (asciiBytes "[" ++ joinComma texts ++ asciiBytes "]")
    | none => none
  | JSONValue.object fields =>
    match encodeFields fields with
    | some entries =>
      some (asciiBytes "\x7b" ++
        joinComma ((entries.foldr insertField []).map
          (fun e => encodeString e.1 ++ asciiBytes ":" ++ e.2)) ++
        asciiBytes "\x7d")
    | none => none
/-- Texts of the items of an array. -/
def encodeItems : List JSONValue → Option (List (List Byte))
  | [] => some []
  | v :: vs =>
    match encodeValue v, encodeItems vs with
    | some t, some ts => some (t :: ts)
    | _, _ => none
/-- Keys and texts of the entries of a map. -/
def encodeFields : List (String × JSONValue) → Option (List (String × List Byte))
  | [] => some []
  | (k, v) :: fs =>
    match encodeValue v, encodeFields fs with
    | some t, some ts => some ((k, t) :: ts)
    | _, _ => none
end

/-- The replacement character U+FFFD. -/
def replacementChar : Char := Char.ofNat 0xFFFD

/-- The byte is a continuation byte of UTF-8. -/
def isContinuation (b : Byte) : Bool :=
  decide (0x80 ≤ b.toNat ∧ b.toNat ≤ 0xBF)

/-- One UTF-8 sequence of two, three or four bytes with first byte `b0`: the
character and the bytes after the sequence; `none` when `b0` and the bytes
after it are not a valid sequence. -/
def decodeSequence (b0 : Byte) (rest : List Byte) : Option (Char × List Byte) :=
  if 0xC2 ≤ b0.toNat ∧ b0.toNat ≤ 0xDF then
    match rest with
    | b1 :: r =>
      if isContinuation b1 then
        some (Char.ofNat ((b0.toNat - 0xC0) * 64 + (b1.toNat - 0x80)), r)
      else none
    | _ => none
  else if 0xE0 ≤ b0.toNat ∧ b0.toNat ≤ 0xEF then
    match rest with
    | b1 :: b2 :: r =>
      if (if b0.toNat = 0xE0 then 0xA0 else 0x80) ≤ b1.toNat ∧
          b1.toNat ≤ (if b0.toNat = 0xED then 0x9F else 0xBF) ∧ isContinuation b2 then
        some (Char.ofNat (((b0.toNat - 0xE0) * 64 + (b1.toNat - 0x80)) * 64
          + (b2.toNat - 0x80)), r)
      else none
    | _ => none
  else if 0xF0 ≤ b0.toNat ∧ b0.toNat ≤ 0xF4 then
    match rest with
    | b1 :: b2 :: b3 :: r =>
      if (if b0.toNat = 0xF0 then 0x90 else 0x80) ≤ b1.toNat ∧
          b1.toNat ≤ (if b0.toNat = 0xF4 then 0x8F else 0xBF) ∧
          isContinuation b2 ∧ isContinuation b3 then
        some (Char.ofNat ((((b0.toNat - 0xF0) * 64 + (b1.toNat - 0x80)) * 64
          + (b2.toNat - 0x80)) * 64 + (b3.toNat - 0x80)), r)
      else none
    | _ => none
  else none

/-- Characters of a byte text read as UTF-8, in front of the reversed list
`acc`; a byte that does not start a valid sequence is read as U+FFFD. The
first argument bounds the number of characters. -/
def decodeUTF8Aux : Nat → List Char → List Byte → List Char
  | 0, acc, _ => acc.reverse
  | _ + 1, acc, [] => acc.reverse
  | fuel + 1, acc, b0 :: rest =>
    if b0.toNat < 0x80 then decodeUTF8Aux fuel (Char.ofNat b0.toNat :: acc) rest
    else
      match decodeSequence b0 rest with
      | some (c, rest') => decodeUTF8Aux fuel (c :: acc) rest'
      | none => decodeUTF8Aux fuel (replacementChar :: acc) rest

/-- Characters of a byte text read as UTF-8; a byte that does not start a
valid sequence is read as U+FFFD, as the decoder of `encoding/json` does inside
strings (outside strings such a byte is a syntax error, and so is U+FFFD). -/
def decodeUTF8 (input : List Byte) : List Char :=
  decodeUTF8Aux input.length [] input

/-- Input after leading JSON white space. -/
def skipSpace : List Char → List Char
  | [] => []
  | c :: cs => if c = ' ' ∨ c = '\t' ∨ c = '\n' ∨ c = '\r' then skipSpace cs else c :: cs

/-- Leading decimal digits and the rest of the input. -/
def takeDigits : List Char → List Char × List Char
  | [] => ([], [])
  | c :: cs =>
    if 48 ≤ c.toNat ∧ c.toNat ≤ 57 then (c :: (takeDigits cs).1, (takeDigits cs).2)
    else ([], c :: cs)

/-- Number written by a list of decimal digits. -/
def digitsValue (ds : List Char) : Nat :=
  ds.foldl (fun n c => 10 * n + (c.toNat - 48)) 0

/-- Optional fraction of a number token: its digits and the rest. -/
def parseFraction : List Char → Option (List Char × List Char)
  | [] => some ([], [])
  | c :: cs =>
    if c = '.' then (if (takeDigits cs).1 = [] then none else some (takeDigits cs))
    else some ([], c :: cs)

/-- Digits of an exponent after the optional sign. -/
def parseExponentDigits (negative : Bool) (cs : List Char) : Option (Int × List Char) :=
  if (takeDigits cs).1 = [] then none
  else if negative then some (-(digitsValue (takeDigits cs).1 : Int), (takeDigits cs).2)
  else some ((digitsValue (takeDigits cs).1 : Int), (takeDigits cs).2)

/-- Optional exponent of a number token: its value and the rest. -/
def parseExponent : List Char → Option (Int × List Char)
  | [] => some (0, [])
  | c :: cs =>
    if c = 'e' ∨ c = 'E' then
      match cs with
      | '-' :: cs' => parseExponentDigits true cs'
      | '+' :: cs' => parseExponentDigits false cs'
      | cs' => parseExponentDigits false cs'
    else some (0, c :: cs)

/-- The decimal number `mantissa * 10 ^ scale`, whose mantissa is written
with `digits` digits, is outside the range of `float64`: it is at least
`2^1024 - 2^970`, the least number that rounds to infinity.
`strconv.ParseFloat` reports a range error for it, and `json.Unmarshal` an
error. A number below `10^308` is within the range and a non-zero number from
`10^400` on is outside; the comparison is made for the numbers in between. -/
def exceedsFloat64 (digits mantissa : Nat) (scale : Int) : Bool :=
  if 0 ≤ scale then
    if mantissa = 0 ∨ digits + scale.toNat ≤ 308 then false
    else if 400 ≤ scale.toNat then true
    else decide (2 ^ 1024 - 2 ^ 970 ≤ mantissa * 10 ^ scale.toNat)
  else if digits ≤ 308 + (-scale).toNat then false
  else decide ((2 ^ 1024 - 2 ^ 970) * 10 ^ (-scale).toNat ≤ mantissa)

/-- The `float64` for the decimal number `mantissa * 10 ^ scale` within the
range, the mantissa written with `digits` digits; a number below `10^-400` is
zero. -/
def decimalFloat (digits mantissa : Nat) (scale : Int) : Float :=
  if mantissa = 0 ∨ (scale < 0 ∧ digits + 400 ≤ (-scale).toNat) then
    Float.ofScientific 0 false 0
  else if 0 ≤ scale then Float.ofScientific mantissa false scale.toNat
  else Float.ofScientific mantissa true (-scale).toNat

/-- Unsigned number token. -/
def parseUnsigned (cs : List Char) : Option (Float × List Char) :=
  if (takeDigits cs).1 = [] ∨
      (1 < (takeDigits cs).1.length ∧ (takeDigits cs).1.head? = some '0') then none
  else
    match parseFraction (takeDigits cs).2 with
    | none => none
    | some (fraction, cs1) =>
      match parseExponent cs1 with
      | none => none
      | some (e, cs2) =>
        let digits := ((takeDigits cs).1 ++ fraction).length
        let mantissa := digitsValue ((takeDigits cs).1 ++ fraction)
        let scale : Int := e - fraction.length
        if exceedsFloat64 digits mantissa scale then none
        else some (decimalFloat digits mantissa scale, cs2)

/-- Number token. -/
def parseNumber : List Char → Option (Float × List Char)
  | '-' :: cs =>
    match parseUnsigned cs with
    | some (f, rest) => some (-f, rest)
    | none => none
  | cs => parseUnsigned cs

/-- Character named by a one-letter escape. -/
def unescape (c : Char) : Option Char :=
  if c = '"' then some '"'
  else if c = '\\' then some '\\'
  else if c = '/' then some '/'
  else if c = 'b' then some (Char.ofNat 8)
  else if c = 'f' then some (Char.ofNat 12)
  else if c = 'n' then some '\n'
  else if c = 'r' then some '\r'
  else if c = 't' then some '\t'
  else none

/-- Value of a hexadecimal digit of either case. -/
def hexValue (c : Char) : Option Nat :=
  if 48 ≤ c.toNat ∧ c.toNat ≤ 57 then some (c.toNat - 48)
  else if 97 ≤ c.toNat ∧ c.toNat ≤ 102 then some (c.toNat - 87)
  else if 65 ≤ c.toNat ∧ c.toNat ≤ 70 then some (c.toNat - 55)
  else none

/-- The escape `\uXXXX` at the head of the input: the number written by the
four hexadecimal digits and the input after them. -/
def parseU4 : List Char → Option (Nat × List Char)
  | '\\' :: 'u' :: a :: b :: c :: d :: rest =>
    match hexValue a, hexValue b, hexValue c, hexValue d with
    | some x, some y, some z, some w => some (((x * 16 + y) * 16 + z) * 16 + w, rest)
    | _, _, _, _ => none
  | _ => none

/-- One more character in front of the characters of a string. -/
def consChar (c : Char) : Option (List Char × List Char) → Option (List Char × List Char)
  | some (s, rest) => some (c :: s, rest)
  | none => none

/-- String token after its opening quote: the characters and the rest of the
input after the closing quote. A `\u` escape of a high surrogate followed by a
`\u` escape of a low surrogate is the character of the pair; any other
surrogate escape is U+FFFD. The first argument bounds the number of characters
read. -/
def parseStringBody : Nat → List Char → Option (List Char × List Char)
  | 0, _ => none
  | _ + 1, [] => none
  | fuel + 1, c :: cs =>
    if c = '"' then some ([], cs)
    else if c = '\\' then
      match cs with
      | [] => none
      | e :: cs' =>
        if e = 'u' then
          match parseU4 (c :: cs) with
          | none => none
          | some (r1, rest) =>
            if 0xD800 ≤ r1 ∧ r1 ≤ 0xDFFF then
              match parseU4 rest with
              | some (r2, rest') =>
                if r1 ≤ 0xDBFF ∧ 0xDC00 ≤ r2 ∧ r2 ≤ 0xDFFF then
                  consChar (Char.ofNat (0x10000 + (r1 - 0xD800) * 0x400 + (r2 - 0xDC00)))
                    (parseStringBody fuel rest')
                else consChar replacementChar (parseStringBody fuel rest)
              | none => consChar replacementChar (parseStringBody fuel rest)
            else consChar (Char.ofNat r1) (parseStringBody fuel rest)
        else
          match unescape e with
          | some x => consChar x (parseStringBody fuel cs')
          | none => none
    else if c.toNat < 32 then none
    else consChar c (parseStringBody fuel cs)

/-- Store of one entry in a map: a key already present gets the new value. -/
def setEntry (k : String) (v : JSONValue) :
    List (String × JSONValue) → List (String × JSONValue)
  | [] => [(k, v)]
  | e :: rest => if e.1 = k then (k, v) :: rest else e :: setEntry k v rest

/-- Map filled with the members of an object in the order of the text. -/
def mkMap (members : List (String × JSONValue)) : List (String × JSONValue) :=
  members.foldl (fun m e => setEntry e.1 e.2 m) []

mutual
/-- One JSON value and the rest of the input. The first argument bounds the
number of steps, the second is the number of arrays and objects around the
value: `encoding/json` rejects a nesting deeper than 10000. -/
def parseValue : Nat → Nat → List Char → Option (JSONValue × List Char)
  | 0, _, _ => none
  | fuel + 1, depth, cs =>
    match skipSpace cs with
    | 'n' :: 'u' :: 'l' :: 'l' :: rest => some (JSONValue.null, rest)
    | 't' :: 'r' :: 'u' :: 'e' :: rest => some (JSONValue.bool true, rest)
    | 'f' :: 'a' :: 'l' :: 's' :: 'e' :: rest => some (JSONValue.bool false, rest)
    | '"' :: rest =>
      match parseStringBody rest.length rest with
      | some (s, rest') => some (JSONValue.string (String.mk s), rest')
      | none => none
    | '[' :: rest =>
      if 10000 ≤ depth then none
      else
        match skipSpace rest with
        | ']' :: rest' => some (JSONValue.array [], rest')
        | rest' =>
          match parseItems fuel (depth + 1) rest' with
          | some (items, rest'') => some (JSONValue.array items, rest'')
          | none => none
    | '\x7b' :: rest =>
      if 10000 ≤ depth then none
      else
        match skipSpace rest with
        | '\x7d' :: rest' => some (JSONValue.object [], rest')
        | rest' =>
          match parseMembers fuel (depth + 1) rest' with
          | some (members, rest'') => some (JSONValue.object (mkMap members), rest'')
          | none => none
    | rest =>
      match parseNumber rest with
      | some (f, rest') => some (JSONValue.number f, rest')
      | none => none
/-- Items of a non-empty array up to the closing bracket. -/
def parseItems : Nat → Nat → List Char → Option (List JSONValue × List Char)
  | 0, _, _ => none
  | fuel + 1, depth, cs =>
    match parseValue fuel depth cs with
    | none => none
    | some (v, rest) =>
      match skipSpace rest with
      | ',' :: rest' =>
        match parseItems fuel depth rest' with
        | some (vs, rest'') => some (v :: vs, rest'')
        | none => none
      | ']' :: rest' => some ([v], rest')
      | _ => none
/-- Members of a non-empty object up to the closing brace. -/
def parseMembers : Nat → Nat → List Char → Option (List (String × JSONValue) × List Char)
  | 0, _, _ => none
  | fuel + 1, depth, cs =>
    match skipSpace cs with
    | '"' :: rest =>
      match parseStringBody rest.length rest with
      | none => none
      | some (k, rest1) =>
        match skipSpace rest1 with
        | ':' :: rest2 =>
          match parseValue fuel depth rest2 with
          | none => none
          | some (v, rest3) =>
            match skipSpace rest3 with
            | ',' :: rest4 =>
              match parseMembers fuel depth rest4 with
              | some (ms, rest5) => some ((String.mk k, v) :: ms, rest5)
              | none => none
            | '\x7d' :: rest4 => some ([(String.mk k, v)], rest4)
            | _ => none
        | _ => none
    | _ => none
end

/-- The JSON value written by a byte text, when the text is one JSON value
that `encoding/json` accepts. -/
def sampleDecode (input : List Byte) : Option JSONValue :=
  match parseValue (2 * input.length + 2) 0 (decodeUTF8 input) with
  | none => none
  | some (v, rest) => if skipSpace rest ≠ [] then none else some v

/-- What `json.Unmarshal` leaves in a nil `map[string]interface{}` for a
top-level value: an object fills the map, `null` leaves it nil without an
error, every other value is an error. -/
def intoMap : JSONValue → Except String (List (String × JSONValue))
  | JSONValue.object fields => Except.ok fields
  | JSONValue.null => Except.ok []
  | _ => Except.error "cannot unmarshal into Go value of type map[string]interface"

/-- Decoding of a request text into a nil `map[string]interface{}`. -/
def sampleUnmarshal (input : List Byte) : Except String (List (String × JSONValue)) :=
  match sampleDecode input with
  | none => Except.error "invalid JSON text"
  | some v => intoMap v

/-- Encoding of a value. -/
def sampleMarshal (v : JSONValue) : Except String (List Byte) :=
  match encodeValue v with
  | some text => Except.ok text
  | none => Except.error "unsupported value"

/-- An executable model of the two library functions: the decoder reads every
byte text as `encoding/json` does, the encoder writes every value without
numbers as `encoding/json` does; the handlers are run on it for concrete
requests. -/
def sampleJSON : JSONLib :=
  { Unmarshal := sampleUnmarshal, Marshal := sampleMarshal }

/-! ## Specification vocabulary -/

/-- The call returns a packed word, and the bytes the word refers to in the
state left by the call (pointer in the high 32 bits, length in the low 32
bits) are `payload`. -/
def ReturnsPayload (out : Outcome Nat) (payload : List Byte) : Prop :=
  ∃ w st', out = Outcome.ret w st' ∧ readBytes st'.memory (w >>> 32) (w % 2 ^ 32) = payload

/-- The call returns a packed word that refers to the JSON text of `v`. -/
def RespondsWith (lib : JSONLib) (out : Outcome Nat) (v : JSONValue) : Prop :=
  ∃ bytes, lib.Marshal v = Except.ok bytes ∧ ReturnsPayload out bytes

/-- The bytes that the responders hand to `allocateAndReturn` for `v`. -/
def encoded (lib : JSONLib) (v : JSONValue) : List Byte :=
  match lib.Marshal v with
  | Except.ok bytes => bytes
  | Except.error _ => []

/-- The input decodes to a map whose `name` entry is a string. -/
def ValidRequest (lib : JSONLib) (input : List Byte) : Prop :=
  ∃ request s, lib.Unmarshal input = Except.ok request ∧
    request.lookup "name" = some (JSONValue.string s)

/-- The `status` entry of a response map, when it is a string. -/
def statusOf : JSONValue → Option String
  | JSONValue.object fields =>
    match fields.lookup "status" with
    | some (JSONValue.string s) => some s
    | _ => none
  | _ => none

/-- A fresh instance whose memory holds `request` at address `0x10000`. -/
def stateWith (request : List Byte) : State :=
  initState (writeBytes (fun _ => 0) 0x10000 request)

/-- The request with a `name` of `n` letters `a`. -/
def longRequest (n : Nat) : List Byte :=
  asciiBytes ("\x7b\"name\":\"" ++ String.mk (List.replicate n 'a') ++ "\"\x7d")

/-- The request with a `name` of `n` characters `<`; `json.Marshal` writes
each of them as the six bytes `\u003c`. -/
def angleRequest (n : Nat) : List Byte :=
  asciiBytes ("\x7b\"name\":\"" ++ String.mk (List.replicate n '<') ++ "\"\x7d")

/-- The state of an instance whose memory held `request` at `0x10000` when it
started, after the host has called `allocate(4294963199)`: the next pointer of
the arena is `0x1000 + 4294963199 = 2^32 - 1`, the last address. -/
def stateAtTop (request : List Byte) : State :=
  (allocate 4294963199 (stateWith request)).2

/-- The `endpoints` entry of a response map, when it is a sequence. -/
def endpointsOf : JSONValue → Option (List JSONValue)
  | JSONValue.object fields =>
    match fields.lookup "endpoints" with
    | some (JSONValue.array items) => some items
    | _ => none
  | _ => none

/-- The value is the JSON literal `null`. -/
def isNull : JSONValue → Bool
  | JSONValue.null => true
  | _ => false

/-- The value is a JSON object. -/
def isObject : JSONValue → Bool
  | JSONValue.object _ => true
  | _ => false

/-- The bytes `handle_k8s_get` hands to `allocateAndReturn`, as a function of
the `name` entry of the decoded request alone. -/
def responseBytes (lib : JSONLib) : Option JSONValue → List Byte
  | none => encoded lib (errorResponse "Missing 'name' parameter")
  | some (JSONValue.string s) =>
    match lib.Marshal (successResponse s) with
    | Except.ok bytes => bytes
    | Except.error err => encoded lib (errorResponse ("JSON marshal error: " ++ err))
  | some _ => encoded lib (errorResponse "Name must be a string")

/-! ## Runs of host calls -/

/-- One call of the host into the instance: the four exported functions. -/
inductive Call where
  | allocate (size : Nat)
  | deallocate (ptr size : Nat)
  | handle_k8s (inputPtr inputLen : Nat)
  | handle_status (inputPtr inputLen : Nat)

/-- A sequence of host calls, executed in order. The result lists the ranges
handed out, as (pointer, size): the pointer returned by `allocate` with the
requested size, and the pointer and length in the packed word returned by a
handler. A handler call that stops in a panic hands out nothing; the variables
and the memory of the instance stay as the call left them, and the run goes
on from there. -/
def run (lib : JSONLib) : List Call → State → List (Nat × Nat) × State
  | [], st => ([], st)
  | Call.allocate size :: rest, st =>
    let r := allocate size st
    let rs := run lib rest r.2
    ((r.1, size) :: rs.1, rs.2)
  | Call.deallocate ptr size :: rest, st => run lib rest (deallocate ptr size st)
  | Call.handle_k8s inputPtr inputLen :: rest, st =>
    match handle_k8s_get lib inputPtr inputLen st with
    | Outcome.ret w st' =>
      let rs := run lib rest st'
      ((w >>> 32, w % 2 ^ 32) :: rs.1, rs.2)
    | Outcome.abort st' => run lib rest st'
  | Call.handle_status inputPtr inputLen :: rest, st =>
    match handle_status lib inputPtr inputLen st with
    | Outcome.ret w st' =>
      let rs := run lib rest st'
      ((w >>> 32, w % 2 ^ 32) :: rs.1, rs.2)
    | Outcome.abort st' => run lib rest st'

/-- Bytes by which a call has advanced the arena: the `uint32` difference of
the offset after the call and the offset before it. -/
def advance (st st' : State) : Nat :=
  (st'.memoryOffset + (2 ^ 32 - st.memoryOffset % 2 ^ 32)) % 2 ^ 32

/-- Sum of the sizes reserved in the arena by a sequence of host calls: the
size requested from `allocate`, the length in the packed word returned by a
handler, and for a handler call that stops in a panic the bytes by which it
had advanced the arena. -/
def reserved (lib : JSONLib) : List Call → State → Nat
  | [], _ => 0
  | Call.allocate size :: rest, st => size + reserved lib rest (allocate size st).2
  | Call.deallocate ptr size :: rest, st => reserved lib rest (deallocate ptr size st)
  | Call.handle_k8s inputPtr inputLen :: rest, st =>
    match handle_k8s_get lib inputPtr inputLen st with
    | Outcome.ret w st' => w % 2 ^ 32 + reserved lib rest st'
    | Outcome.abort st' => advance st st' + reserved lib rest st'
  | Call.handle_status inputPtr inputLen :: rest, st =>
    match handle_status lib inputPtr inputLen st with
    | Outcome.ret w st' => w % 2 ^ 32 + reserved lib rest st'
    | Outcome.abort st' => advance st st' + reserved lib rest st'

/-- Summary of a run that started in `st` and reserved `total` bytes: every
range handed out lies between the position of the arena at the start and that
position plus `total`, every range ends at or before the start of all ranges
handed out after it, and the bytes below the starting position are left as
they were. -/
def RunOK (st : State) (total : Nat) (res : List (Nat × Nat) × State) : Prop :=
  (∀ r ∈ res.1, st.memoryBase + st.memoryOffset ≤ r.1 ∧
      r.1 + r.2 ≤ st.memoryBase + st.memoryOffset + total) ∧
  List.Pairwise (fun r s => r.1 + r.2 ≤ s.1) res.1 ∧
  (∀ a, a < st.memoryBase + st.memoryOffset → res.2.memory a = st.memory a)

/-! ## Lemmas on the arena -/

theorem overlaps_iff (r s : Nat × Nat) :
    Overlaps r s ↔ ∃ a, (r.1 ≤ a ∧ a < r.1 + r.2) ∧ (s.1 ≤ a ∧ a < s.1 + s.2) := by
  unfold Overlaps
  constructor
  · intro h
    refine ⟨max r.1 s.1, ⟨le_max_left _ _, ?_⟩, ⟨le_max_right _ _, ?_⟩⟩
    · exact lt_of_lt_of_le h (min_le_left _ _)
    · exact lt_of_lt_of_le h (min_le_right _ _)
  · rintro ⟨a, ⟨h1, h2⟩, ⟨h3, h4⟩⟩
    exact lt_of_le_of_lt (max_le h1 h3) (lt_min h2 h4)

theorem not_overlaps_of_le (r s : Nat × Nat) (h : r.1 + r.2 ≤ s.1) : ¬ Overlaps r s := by
  unfold Overlaps
  intro h'
  have h1 : s.1 ≤ max r.1 s.1 := le_max_right _ _
  have h2 : min (r.1 + r.2) (s.1 + s.2) ≤ r.1 + r.2 := min_le_left _ _
  omega

/-- Without wrap-around every range handed out by a run of `allocate` calls
lies between the starting position and the final position of the arena, and
the ranges are issued in increasing, non-touching order. -/
theorem allocateAll_sorted (sizes : List Nat) :
    ∀ st : State, st.memoryBase + st.memoryOffset + sizes.sum < 2 ^ 32 →
      (∀ r ∈ (allocateAll sizes st).1,
          st.memoryBase + st.memoryOffset ≤ r.1 ∧
          r.1 + r.2 ≤ st.memoryBase + st.memoryOffset + sizes.sum) ∧
      List.Pairwise (fun r s => r.1 + r.2 ≤ s.1) (allocateAll sizes st).1 := by
  induction sizes with
  | nil => intro st _; simp [allocateAll]
  | cons size rest ih =>
    intro st h
    simp only [List.sum_cons] at h
    have hoff : (st.memoryOffset + size) % 2 ^ 32 = st.memoryOffset + size :=
      Nat.mod_eq_of_lt (by omega)
    have hptr : (st.memoryBase + st.memoryOffset) % 2 ^ 32 = st.memoryBase + st.memoryOffset :=
      Nat.mod_eq_of_lt (by omega)
    have h' : (allocate size st).2.memoryBase + (allocate size st).2.memoryOffset + rest.sum
        < 2 ^ 32 := by
      simp only [allocate, hoff]; omega
    obtain ⟨hb, hp⟩ := ih (allocate size st).2 h'
    have hb' : ∀ r ∈ (allocateAll rest (allocate size st).2).1,
        st.memoryBase + st.memoryOffset + size ≤ r.1 ∧
        r.1 + r.2 ≤ st.memoryBase + st.memoryOffset + size + rest.sum := by
      intro r hr
      have := hb r hr
      simp only [allocate, hoff] at this
      omega
    constructor
    · intro r hr
      simp only [allocateAll, List.mem_cons] at hr
      rcases hr with hr | hr
      · subst hr
        simp only [allocate, hptr, List.sum_cons]
        omega
      · have := hb' r hr
        simp only [List.sum_cons]
        omega
    · simp only [allocateAll, List.pairwise_cons]
      refine ⟨?_, hp⟩
      intro s hs
      have := hb' s hs
      simp only [allocate, hptr]
      omega

/-! ## Lemmas on marshalling -/

theorem packWord_eq (ptr size : Nat) (hp : ptr < 2 ^ 32) (hs : size < 2 ^ 32) :
    packWord ptr size = 2 ^ 32 * ptr + size := by
  unfold packWord
  have h1 : (ptr <<< 32) % 2 ^ 64 = 2 ^ 32 * ptr := by
    rw [Nat.shiftLeft_eq, Nat.mod_eq_of_lt (by omega)]; ring
  rw [h1]
  exact (Nat.mul_add_lt_is_or hs ptr).symm

theorem packWord_shiftRight (ptr size : Nat) (hp : ptr < 2 ^ 32) (hs : size < 2 ^ 32) :
    packWord ptr size >>> 32 = ptr := by
  rw [packWord_eq ptr size hp hs, Nat.shiftRight_eq_div_pow]
  omega

theorem packWord_mod (ptr size : Nat) (hp : ptr < 2 ^ 32) (hs : size < 2 ^ 32) :
    packWord ptr size % 2 ^ 32 = size := by
  rw [packWord_eq ptr size hp hs]
  omega

theorem readBytes_length (memory : Nat → Byte) (ptr len : Nat) :
    (readBytes memory ptr len).length = len := by
  simp [readBytes]

theorem readBytes_writeBytes (memory : Nat → Byte) (ptr : Nat) (data : List Byte) :
    readBytes (writeBytes memory ptr data) ptr data.length = data := by
  apply List.ext_getElem
  · simp [readBytes]
  · intro i h1 h2
    simp [readBytes, writeBytes, List.getElem?_eq_getElem h2]

theorem writeBytes_outside (memory : Nat → Byte) (ptr : Nat) (data : List Byte) (a : Nat)
    (h : a < ptr ∨ ptr + data.length ≤ a) : writeBytes memory ptr data a = memory a := by
  unfold writeBytes
  split
  · have : data.length ≤ a - ptr := by omega
    simp [List.getElem?_eq_none this]
  · rfl

/-- A request of fewer than `2^31` bytes stored at `0x10000` is what
`readInput` returns for that address and length. -/
theorem readInput_stateWith (request : List Byte) (h : request.length < 2 ^ 31) :
    readInput 0x10000 request.length (stateWith request) = some request := by
  have hmod : request.length % 2 ^ 32 = request.length := Nat.mod_eq_of_lt (by omega)
  have hlen : toInt32 request.length = (request.length : Int) := by
    unfold toInt32
    rw [hmod, if_pos h]
  unfold readInput
  simp only [hlen]
  have hnil : ¬ (65536 % 2 ^ 32 = 0 ∧ (request.length : Int) ≠ 0) := fun hc => absurd hc.1 (by decide)
  have hfit : ¬ 2 ^ 32 < 65536 % 2 ^ 32 + (request.length : Int).toNat := by
    rw [Int.toNat_ofNat]
    omega
  rw [if_neg (by omega), if_neg hnil, if_neg hfit]
  simp only [Int.toNat_ofNat, stateWith, initState]
  exact congrArg some (readBytes_writeBytes _ _ _)

/-- A payload of at most 1024 bytes is stored at the pointer taken from the
arena and the packed word of pointer and length is returned, when the pointer
is not 0 and the payload ends within the address space. -/
theorem allocateAndReturn_of_le (data : List Byte) (st : State) (h : data.length ≤ 1024)
    (hp : arenaPointer st ≠ 0) (hroom : arenaPointer st + data.length ≤ 2 ^ 32) :
    allocateAndReturn data st =
      Outcome.ret (packWord ((st.memoryBase + st.memoryOffset) % 2 ^ 32) data.length)
        { memoryBase := st.memoryBase,
          memoryOffset := (st.memoryOffset + data.length) % 2 ^ 32,
          memory := writeBytes st.memory ((st.memoryBase + st.memoryOffset) % 2 ^ 32) data } := by
  have hsize : data.length % 2 ^ 32 = data.length := Nat.mod_eq_of_lt (by omega)
  unfold arenaPointer at hp hroom
  have hcond : ¬ ((st.memoryBase + st.memoryOffset) % 2 ^ 32 = 0 ∨ 1024 < data.length ∨
      2 ^ 32 < (st.memoryBase + st.memoryOffset) % 2 ^ 32 + data.length) := by omega
  simp only [allocateAndReturn, allocate, hsize, if_neg hcond, List.take_length]

/-- A payload whose `uint32` length exceeds 1024 makes the call stop after
the arena has been advanced. -/
theorem allocateAndReturn_of_gt (data : List Byte) (st : State)
    (h : 1024 < data.length % 2 ^ 32) :
    allocateAndReturn data st = Outcome.abort (allocate (data.length % 2 ^ 32) st).2 := by
  simp only [allocateAndReturn, if_pos (Or.inr (Or.inl h))]

/-- A pointer 0, or a payload that passes the end of the address space, makes
the call stop after the arena has been advanced. -/
theorem allocateAndReturn_of_wrap (data : List Byte) (st : State)
    (h : arenaPointer st = 0 ∨ 2 ^ 32 < arenaPointer st + data.length % 2 ^ 32) :
    allocateAndReturn data st = Outcome.abort (allocate (data.length % 2 ^ 32) st).2 := by
  unfold arenaPointer at h
  have hcond : (st.memoryBase + st.memoryOffset) % 2 ^ 32 = 0 ∨
      1024 < data.length % 2 ^ 32 ∨
      2 ^ 32 < (st.memoryBase + st.memoryOffset) % 2 ^ 32 + data.length % 2 ^ 32 := by
    rcases h with h | h
    · exact Or.inl h
    · exact Or.inr (Or.inr h)
  simp only [allocateAndReturn, allocate, if_pos hcond]

theorem returnsPayload_allocateAndReturn (data : List Byte) (st : State)
    (h : data.length ≤ 1024)
    (hp : arenaPointer st ≠ 0) (hroom : arenaPointer st + data.length ≤ 2 ^ 32) :
    ReturnsPayload (allocateAndReturn data st) data := by
  have hp' : (st.memoryBase + st.memoryOffset) % 2 ^ 32 < 2 ^ 32 := Nat.mod_lt _ (by decide)
  have hs : data.length < 2 ^ 32 := by omega
  refine ⟨_, _, allocateAndReturn_of_le data st h hp hroom, ?_⟩
  rw [packWord_shiftRight _ _ hp' hs, packWord_mod _ _ hp' hs]
  exact readBytes_writeBytes _ _ _

theorem not_returnsPayload_abort (st : State) (payload : List Byte) :
    ¬ ReturnsPayload (Outcome.abort st : Outcome Nat) payload := by
  rintro ⟨w, st', h, _⟩
  cases h

/-! ## Lemmas on the handlers -/

theorem respondError_eq (lib : JSONLib) (message : String) (st : State) :
    respondError lib message st = allocateAndReturn (encoded lib (errorResponse message)) st := by
  unfold respondError encoded
  cases lib.Marshal (errorResponse message) <;> rfl

theorem respondJSON_of_ok (lib : JSONLib) (data : JSONValue) (st : State) (bytes : List Byte)
    (hm : lib.Marshal data = Except.ok bytes) :
    respondJSON lib data st = allocateAndReturn bytes st := by
  unfold respondJSON
  rw [hm]

theorem encoded_of_ok (lib : JSONLib) (data : JSONValue) (bytes : List Byte)
    (hm : lib.Marshal data = Except.ok bytes) : encoded lib data = bytes := by
  unfold encoded
  rw [hm]

theorem respondError_respondsWith (lib : JSONLib) (message : String) (st : State)
    (bytes : List Byte) (hm : lib.Marshal (errorResponse message) = Except.ok bytes)
    (hlen : bytes.length ≤ 1024)
    (hp : arenaPointer st ≠ 0) (hroom : arenaPointer st + bytes.length ≤ 2 ^ 32) :
    RespondsWith lib (respondError lib message st) (errorResponse message) := by
  refine ⟨bytes, hm, ?_⟩
  rw [respondError_eq, encoded_of_ok lib _ bytes hm]
  exact returnsPayload_allocateAndReturn bytes st hlen hp hroom

theorem respondJSON_respondsWith (lib : JSONLib) (data : JSONValue) (st : State)
    (bytes : List Byte) (hm : lib.Marshal data = Except.ok bytes)
    (hlen : bytes.length ≤ 1024)
    (hp : arenaPointer st ≠ 0) (hroom : arenaPointer st + bytes.length ≤ 2 ^ 32) :
    RespondsWith lib (respondJSON lib data st) data := by
  refine ⟨bytes, hm, ?_⟩
  rw [respondJSON_of_ok lib data st bytes hm]
  exact returnsPayload_allocateAndReturn bytes st hlen hp hroom

theorem respondError_returnsPayload (lib : JSONLib) (message : String) (st : State)
    (bytes : List Byte) (hm : lib.Marshal (errorResponse message) = Except.ok bytes)
    (hlen : bytes.length ≤ 1024)
    (hp : arenaPointer st ≠ 0) (hroom : arenaPointer st + bytes.length ≤ 2 ^ 32) :
    ReturnsPayload (respondError lib message st) bytes := by
  rw [respondError_eq, encoded_of_ok lib _ bytes hm]
  exact returnsPayload_allocateAndReturn bytes st hlen hp hroom

theorem respondJSON_returnsPayload (lib : JSONLib) (data : JSONValue) (st : State)
    (bytes : List Byte) (hm : lib.Marshal data = Except.ok bytes)
    (hlen : bytes.length ≤ 1024)
    (hp : arenaPointer st ≠ 0) (hroom : arenaPointer st + bytes.length ≤ 2 ^ 32) :
    ReturnsPayload (respondJSON lib data st) bytes := by
  rw [respondJSON_of_ok lib data st bytes hm]
  exact returnsPayload_allocateAndReturn bytes st hlen hp hroom

theorem respondJSON_abort (lib : JSONLib) (data : JSONValue) (st : State)
    (bytes : List Byte) (hm : lib.Marshal data = Except.ok bytes)
    (hlen : 1024 < bytes.length) (hlt : bytes.length < 2 ^ 32) :
    respondJSON lib data st =
      Outcome.abort { st with memoryOffset := (st.memoryOffset + bytes.length) % 2 ^ 32 } := by
  have hmod : bytes.length % 2 ^ 32 = bytes.length := Nat.mod_eq_of_lt hlt
  rw [respondJSON_of_ok lib data st bytes hm, allocateAndReturn_of_gt bytes st (by omega)]
  simp only [allocate, hmod]

theorem handle_k8s_get_of_error (lib : JSONLib) (inputPtr inputLen : Nat) (st : State)
    (input : List Byte) (e : String)
    (hin : readInput inputPtr inputLen st = some input)
    (hu : lib.Unmarshal input = Except.error e) :
    handle_k8s_get lib inputPtr inputLen st = respondError lib "Invalid JSON input" st := by
  simp only [handle_k8s_get, hin, hu]

theorem handle_k8s_get_of_missing (lib : JSONLib) (inputPtr inputLen : Nat) (st : State)
    (input : List Byte) (request : List (String × JSONValue))
    (hin : readInput inputPtr inputLen st = some input)
    (hu : lib.Unmarshal input = Except.ok request)
    (hn : request.lookup "name" = none) :
    handle_k8s_get lib inputPtr inputLen st = respondError lib "Missing 'name' parameter" st := by
  simp only [handle_k8s_get, hin, hu, hn]

theorem handle_k8s_get_of_not_string (lib : JSONLib) (inputPtr inputLen : Nat) (st : State)
    (input : List Byte) (request : List (String × JSONValue)) (v : JSONValue)
    (hin : readInput inputPtr inputLen st = some input)
    (hu : lib.Unmarshal input = Except.ok request)
    (hn : request.lookup "name" = some v)
    (hv : ∀ s, v ≠ JSONValue.string s) :
    handle_k8s_get lib inputPtr inputLen st = respondError lib "Name must be a string" st := by
  cases v with
  | string s => exact absurd rfl (hv s)
  | null => simp only [handle_k8s_get, hin, hu, hn]
  | bool b => simp only [handle_k8s_get, hin, hu, hn]
  | number f => simp only [handle_k8s_get, hin, hu, hn]
  | array items => simp only [handle_k8s_get, hin, hu, hn]
  | object fields => simp only [handle_k8s_get, hin, hu, hn]

theorem handle_k8s_get_of_string (lib : JSONLib) (inputPtr inputLen : Nat) (st : State)
    (input : List Byte) (request : List (String × JSONValue)) (s : String)
    (hin : readInput inputPtr inputLen st = some input)
    (hu : lib.Unmarshal input = Except.ok request)
    (hn : request.lookup "name" = some (JSONValue.string s)) :
    handle_k8s_get lib inputPtr inputLen st = respondJSON lib (successResponse s) st := by
  simp only [handle_k8s_get, hin, hu, hn]

/-- A request with a string `name` whose response text has at most 1024 bytes
is answered with the success response, when the arena pointer is not 0 and the
text ends within the address space. -/
theorem handle_k8s_get_success_of_fits (lib : JSONLib) (inputPtr inputLen : Nat) (st : State)
    (input : List Byte) (request : List (String × JSONValue)) (s : String) (bytes : List Byte)
    (hin : readInput inputPtr inputLen st = some input)
    (hu : lib.Unmarshal input = Except.ok request)
    (hn : request.lookup "name" = some (JSONValue.string s))
    (hm : lib.Marshal (successResponse s) = Except.ok bytes)
    (hlen : bytes.length ≤ 1024)
    (hp : arenaPointer st ≠ 0) (hroom : arenaPointer st + bytes.length ≤ 2 ^ 32) :
    RespondsWith lib (handle_k8s_get lib inputPtr inputLen st) (successResponse s) := by
  rw [handle_k8s_get_of_string lib inputPtr inputLen st input request s hin hu hn]
  exact respondJSON_respondsWith lib _ st bytes hm hlen hp hroom

/-- The request `{"name":"World"}` is answered with the success response for
`World`, whose text is
`{"message":"Hello World!","name":"World","status":"success"}`. -/
theorem happy_path_world :
    RespondsWith sampleJSON
      (handle_k8s_get sampleJSON 0x10000 16
        (stateWith (asciiBytes "\x7b\"name\":\"World\"\x7d")))
      (successResponse "World") ∧
    sampleJSON.Marshal (successResponse "World") = Except.ok (asciiBytes
      "\x7b\"message\":\"Hello World!\",\"name\":\"World\",\"status\":\"success\"\x7d") :=
  ⟨handle_k8s_get_success_of_fits sampleJSON 0x10000 16
    (stateWith (asciiBytes "\x7b\"name\":\"World\"\x7d"))
    (asciiBytes "\x7b\"name\":\"World\"\x7d") [("name", JSONValue.string "World")] "World"
    (encoded sampleJSON (successResponse "World"))
    (by decide) (by rfl) (by rfl) (by rfl) (by decide) (by decide) (by decide), by rfl⟩

/-- The reference decoder hands a text that is one JSON value to the map
target: the result is `intoMap` of the value. -/
theorem sampleUnmarshal_of_sampleDecode (input : List Byte) (v : JSONValue)
    (h : sampleDecode input = some v) : sampleJSON.Unmarshal input = intoMap v := by
  show sampleUnmarshal input = intoMap v
  unfold sampleUnmarshal
  rw [h]

theorem statusOf_errorResponse (message : String) :
    statusOf (errorResponse message) = some "error" := by
  simp [statusOf, errorResponse, List.lookup]

theorem statusOf_successResponse (s : String) :
    statusOf (successResponse s) = some "success" := by
  simp [statusOf, successResponse, List.lookup]

/-! ## Lemmas on single calls -/

/-- What a returning `allocateAndReturn` has done: the word packs the pointer
taken from the arena and the `uint32` length, the length is at most 1024, the
offset has advanced by the length, and memory has changed by the copy only. -/
theorem allocateAndReturn_ret (data : List Byte) (st st' : State) (w : Nat)
    (h : allocateAndReturn data st = Outcome.ret w st') :
    w >>> 32 = (st.memoryBase + st.memoryOffset) % 2 ^ 32 ∧
    w % 2 ^ 32 = data.length % 2 ^ 32 ∧
    data.length % 2 ^ 32 ≤ 1024 ∧
    st'.memoryBase = st.memoryBase ∧
    st'.memoryOffset = (st.memoryOffset + data.length % 2 ^ 32) % 2 ^ 32 ∧
    st'.memory = writeBytes st.memory ((st.memoryBase + st.memoryOffset) % 2 ^ 32)
      (data.take (data.length % 2 ^ 32)) := by
  have hp : (st.memoryBase + st.memoryOffset) % 2 ^ 32 < 2 ^ 32 := Nat.mod_lt _ (by decide)
  have hs : data.length % 2 ^ 32 < 2 ^ 32 := Nat.mod_lt _ (by decide)
  unfold allocateAndReturn at h
  simp only [allocate] at h
  split at h
  · cases h
  · rename_i hle
    injection h with hw hst
    subst hw hst
    exact ⟨packWord_shiftRight _ _ hp hs, packWord_mod _ _ hp hs, by omega, rfl, rfl, rfl⟩

/-- A returning `allocateAndReturn` started with a pointer other than 0 and
stored its bytes within the address space. -/
theorem allocateAndReturn_ret_room (data : List Byte) (st st' : State) (w : Nat)
    (h : allocateAndReturn data st = Outcome.ret w st') :
    arenaPointer st ≠ 0 ∧ arenaPointer st + data.length % 2 ^ 32 ≤ 2 ^ 32 := by
  unfold allocateAndReturn at h
  simp only [allocate] at h
  unfold arenaPointer
  split at h
  · cases h
  · rename_i hle
    omega

/-- Frame of a returning call that ends in `allocateAndReturn`: pointer and
length of the word against the arena before the call, and the bytes outside
the returned range. -/
theorem allocateAndReturn_frame (data : List Byte) (st st' : State) (w : Nat)
    (h : allocateAndReturn data st = Outcome.ret w st') :
    w >>> 32 = (st.memoryBase + st.memoryOffset) % 2 ^ 32 ∧
    w % 2 ^ 32 ≤ 1024 ∧
    st'.memoryBase = st.memoryBase ∧
    st'.memoryOffset = (st.memoryOffset + w % 2 ^ 32) % 2 ^ 32 ∧
    (∀ a, a < w >>> 32 ∨ w >>> 32 + w % 2 ^ 32 ≤ a → st'.memory a = st.memory a) := by
  obtain ⟨h1, h2, h3, h4, h5, h6⟩ := allocateAndReturn_ret data st st' w h
  refine ⟨h1, by omega, h4, by rw [h5, h2], ?_⟩
  intro a ha
  rw [h6]
  apply writeBytes_outside
  have hlen : (data.take (data.length % 2 ^ 32)).length = data.length % 2 ^ 32 := by
    rw [List.length_take]
    exact Nat.min_eq_left (Nat.mod_le _ _)
  rw [hlen, ← h1, ← h2]
  exact ha

/-- The payload of a returning `allocateAndReturn` is its argument, cut to the
`uint32` length. -/
theorem returnsPayload_allocateAndReturn_eq (data : List Byte) (st : State)
    (payload : List Byte) (h : ReturnsPayload (allocateAndReturn data st) payload) :
    payload = data.take (data.length % 2 ^ 32) := by
  have hlen : (data.take (data.length % 2 ^ 32)).length = data.length % 2 ^ 32 := by
    rw [List.length_take]
    exact Nat.min_eq_left (Nat.mod_le _ _)
  obtain ⟨w, st', h, hr⟩ := h
  obtain ⟨h1, h2, _, _, _, h6⟩ := allocateAndReturn_ret data st st' w h
  have hrw := readBytes_writeBytes st.memory ((st.memoryBase + st.memoryOffset) % 2 ^ 32)
    (data.take (data.length % 2 ^ 32))
  rw [hlen] at hrw
  rw [← hr, h6, h1, h2]
  exact hrw

/-- When `allocateAndReturn` returns a payload, and which: the arena pointer is
not 0, the `uint32` length is at most 1024 and the bytes end within the
address space; the payload is the argument cut to that length. -/
theorem returnsPayload_allocateAndReturn_iff (data : List Byte) (st : State)
    (payload : List Byte) :
    ReturnsPayload (allocateAndReturn data st) payload ↔
      (arenaPointer st ≠ 0 ∧ data.length % 2 ^ 32 ≤ 1024 ∧
        arenaPointer st + data.length % 2 ^ 32 ≤ 2 ^ 32) ∧
      payload = data.take (data.length % 2 ^ 32) := by
  constructor
  · intro h
    have heq := returnsPayload_allocateAndReturn_eq data st payload h
    obtain ⟨w, st', hret, _⟩ := h
    obtain ⟨hp, hroom⟩ := allocateAndReturn_ret_room data st st' w hret
    exact ⟨⟨hp, (allocateAndReturn_ret data st st' w hret).2.2.1, hroom⟩, heq⟩
  · rintro ⟨⟨hp, hlen, hroom⟩, rfl⟩
    have hp' : (st.memoryBase + st.memoryOffset) % 2 ^ 32 < 2 ^ 32 := Nat.mod_lt _ (by decide)
    have hs : data.length % 2 ^ 32 < 2 ^ 32 := Nat.mod_lt _ (by decide)
    have htake : (data.take (data.length % 2 ^ 32)).length = data.length % 2 ^ 32 := by
      rw [List.length_take]
      exact Nat.min_eq_left (Nat.mod_le _ _)
    unfold arenaPointer at hp hroom
    have hcond : ¬ ((st.memoryBase + st.memoryOffset) % 2 ^ 32 = 0 ∨
        1024 < data.length % 2 ^ 32 ∨
        2 ^ 32 < (st.memoryBase + st.memoryOffset) % 2 ^ 32 + data.length % 2 ^ 32) := by
      omega
    refine ⟨_, _, by simp only [allocateAndReturn, allocate, if_neg hcond]; rfl, ?_⟩
    rw [packWord_shiftRight _ _ hp' hs, packWord_mod _ _ hp' hs]
    have hrw := readBytes_writeBytes st.memory ((st.memoryBase + st.memoryOffset) % 2 ^ 32)
      (data.take (data.length % 2 ^ 32))
    rw [htake] at hrw
    exact hrw

/-- Every path of `handle_k8s_get` after a successful decode ends in
`allocateAndReturn`, on bytes fixed by the `name` entry of the request. -/
theorem handle_k8s_get_eq_responseBytes (lib : JSONLib) (inputPtr inputLen : Nat) (st : State)
    (input : List Byte) (request : List (String × JSONValue))
    (hin : readInput inputPtr inputLen st = some input)
    (hu : lib.Unmarshal input = Except.ok request) :
    handle_k8s_get lib inputPtr inputLen st =
      allocateAndReturn (responseBytes lib (request.lookup "name")) st := by
  cases hn : request.lookup "name" with
  | none =>
    rw [handle_k8s_get_of_missing lib _ _ st input request hin hu hn, respondError_eq]
    rfl
  | some v =>
    by_cases hv : ∃ s, v = JSONValue.string s
    · obtain ⟨s, rfl⟩ := hv
      rw [handle_k8s_get_of_string lib _ _ st input request s hin hu hn]
      cases hm : lib.Marshal (successResponse s) with
      | ok bytes =>
        rw [respondJSON_of_ok lib _ st bytes hm]
        simp only [responseBytes, hm]
      | error err =>
        simp only [respondJSON, responseBytes, hm]
        exact respondError_eq lib _ st
    · have hv' : ∀ s, v ≠ JSONValue.string s := fun s hs => hv ⟨s, hs⟩
      rw [handle_k8s_get_of_not_string lib _ _ st input request v hin hu hn hv',
        respondError_eq]
      cases v with
      | string s => exact absurd rfl (hv' s)
      | null => rfl
      | bool b => rfl
      | number f => rfl
      | array items => rfl
      | object fields => rfl

theorem respondJSON_eq_allocateAndReturn (lib : JSONLib) (data : JSONValue) (st : State) :
    ∃ bytes, respondJSON lib data st = allocateAndReturn bytes st := by
  unfold respondJSON
  cases lib.Marshal data with
  | ok bytes => exact ⟨bytes, rfl⟩
  | error err => exact ⟨_, respondError_eq lib _ st⟩

/-- A returning `handle_k8s_get` is a returning `allocateAndReturn` from the
same state. -/
theorem handle_k8s_get_ret (lib : JSONLib) (inputPtr inputLen : Nat) (st st' : State) (w : Nat)
    (h : handle_k8s_get lib inputPtr inputLen st = Outcome.ret w st') :
    ∃ data, allocateAndReturn data st = Outcome.ret w st' := by
  cases hin : readInput inputPtr inputLen st with
  | none =>
    simp only [handle_k8s_get, hin] at h
    cases h
  | some input =>
    cases hu : lib.Unmarshal input with
    | error e =>
      rw [handle_k8s_get_of_error lib _ _ st input e hin hu, respondError_eq] at h
      exact ⟨_, h⟩
    | ok request =>
      rw [handle_k8s_get_eq_responseBytes lib _ _ st input request hin hu] at h
      exact ⟨_, h⟩

/-- A returning `handle_status` is a returning `allocateAndReturn` from the
same state. -/
theorem handle_status_ret (lib : JSONLib) (inputPtr inputLen : Nat) (st st' : State) (w : Nat)
    (h : handle_status lib inputPtr inputLen st = Outcome.ret w st') :
    ∃ data, allocateAndReturn data st = Outcome.ret w st' := by
  obtain ⟨bytes, hb⟩ := respondJSON_eq_allocateAndReturn lib statusResponse st
  unfold handle_status at h
  rw [hb] at h
  exact ⟨bytes, h⟩

/-! ## Lemmas on runs -/

/-- What a call of `allocateAndReturn` that stops in a panic leaves: base and
memory as before, the offset advanced by a `uint32` size. -/
theorem allocateAndReturn_abort (data : List Byte) (st st' : State)
    (h : allocateAndReturn data st = Outcome.abort st') :
    st'.memoryBase = st.memoryBase ∧ st'.memory = st.memory ∧
    ∃ k, k < 2 ^ 32 ∧ st'.memoryOffset = (st.memoryOffset + k) % 2 ^ 32 := by
  unfold allocateAndReturn at h
  simp only [allocate] at h
  split at h
  · injection h with hst
    subst hst
    exact ⟨rfl, rfl, data.length % 2 ^ 32, Nat.mod_lt _ (by decide), rfl⟩
  · cases h

theorem handle_k8s_get_abort (lib : JSONLib) (inputPtr inputLen : Nat)
    (st st' : State) (h : handle_k8s_get lib inputPtr inputLen st = Outcome.abort st') :
    st'.memoryBase = st.memoryBase ∧ st'.memory = st.memory ∧
    (st'.memoryOffset = st.memoryOffset ∨
      ∃ k, k < 2 ^ 32 ∧ st'.memoryOffset = (st.memoryOffset + k) % 2 ^ 32) := by
  cases hin : readInput inputPtr inputLen st with
  | none =>
    simp only [handle_k8s_get, hin] at h
    injection h with hst
    subst hst
    exact ⟨rfl, rfl, Or.inl rfl⟩
  | some input =>
    cases hu : lib.Unmarshal input with
    | error e =>
      rw [handle_k8s_get_of_error lib _ _ st input e hin hu, respondError_eq] at h
      obtain ⟨h1, h2, h3⟩ := allocateAndReturn_abort _ st st' h
      exact ⟨h1, h2, Or.inr h3⟩
    | ok request =>
      rw [handle_k8s_get_eq_responseBytes lib _ _ st input request hin hu] at h
      obtain ⟨h1, h2, h3⟩ := allocateAndReturn_abort _ st st' h
      exact ⟨h1, h2, Or.inr h3⟩

theorem handle_status_abort (lib : JSONLib) (inputPtr inputLen : Nat)
    (st st' : State) (h : handle_status lib inputPtr inputLen st = Outcome.abort st') :
    st'.memoryBase = st.memoryBase ∧ st'.memory = st.memory ∧
    (st'.memoryOffset = st.memoryOffset ∨
      ∃ k, k < 2 ^ 32 ∧ st'.memoryOffset = (st.memoryOffset + k) % 2 ^ 32) := by
  obtain ⟨bytes, hb⟩ := respondJSON_eq_allocateAndReturn lib statusResponse st
  unfold handle_status at h
  rw [hb] at h
  obtain ⟨h1, h2, h3⟩ := allocateAndReturn_abort bytes st st' h
  exact ⟨h1, h2, Or.inr h3⟩

/-- Without wrap-around the offset after a call that stopped in a panic is the
offset before it plus the bytes by which the call advanced the arena. -/
theorem offset_of_advance (st st' : State) (rest : Nat)
    (ho : st'.memoryOffset = st.memoryOffset ∨
      ∃ k, k < 2 ^ 32 ∧ st'.memoryOffset = (st.memoryOffset + k) % 2 ^ 32)
    (hno : st.memoryBase + st.memoryOffset + (advance st st' + rest) < 2 ^ 32) :
    st'.memoryOffset = st.memoryOffset + advance st st' := by
  unfold advance at hno ⊢
  rcases ho with ho | ⟨k, hk, ho⟩
  · rw [ho]
    omega
  · rw [ho] at hno ⊢
    omega

theorem runOK_nil (st : State) : RunOK st 0 ([], st) := by
  refine ⟨?_, List.Pairwise.nil, ?_⟩
  · intro r hr
    cases hr
  · intro a _
    rfl

/-- A call in front of a run that hands out nothing and advances the arena by
`n` bytes. -/
theorem runOK_skip (st st' : State) (n total : Nat) (res : List (Nat × Nat) × State)
    (hb : st'.memoryBase = st.memoryBase)
    (ho : st'.memoryOffset = st.memoryOffset + n)
    (hm : st'.memory = st.memory)
    (ih : RunOK st' total res) : RunOK st (n + total) res := by
  obtain ⟨h1, h2, h3⟩ := ih
  rw [hb, ho] at h1 h3
  refine ⟨?_, h2, ?_⟩
  · intro r hr
    have := h1 r hr
    omega
  · intro a ha
    rw [h3 a (by omega), hm]

/-- One more range in front of a run: the range starts at the position of the
arena, the run after it starts where the range ends. -/
theorem runOK_cons (st st' : State) (ptr n total : Nat) (res : List (Nat × Nat) × State)
    (hp : ptr = st.memoryBase + st.memoryOffset)
    (hb : st'.memoryBase = st.memoryBase)
    (ho : st'.memoryOffset = st.memoryOffset + n)
    (hm : ∀ a, a < ptr → st'.memory a = st.memory a)
    (ih : RunOK st' total res) : RunOK st (n + total) ((ptr, n) :: res.1, res.2) := by
  obtain ⟨h1, h2, h3⟩ := ih
  rw [hb, ho] at h1 h3
  refine ⟨?_, ?_, ?_⟩
  · intro r hr
    simp only [List.mem_cons] at hr
    rcases hr with hr | hr
    · subst hr
      simp only
      omega
    · have := h1 r hr
      omega
  · simp only [List.pairwise_cons]
    refine ⟨?_, h2⟩
    intro r hr
    have := h1 r hr
    show ptr + n ≤ r.1
    omega
  · intro a ha
    rw [h3 a (by omega), hm a (by omega)]

/-- A handler call that returns, placed in front of a run without
wrap-around. -/
theorem runOK_of_ret (data : List Byte) (st st' : State) (w total : Nat)
    (res : List (Nat × Nat) × State)
    (h : allocateAndReturn data st = Outcome.ret w st')
    (hno : st.memoryBase + st.memoryOffset + (w % 2 ^ 32 + total) < 2 ^ 32)
    (ih : st'.memoryBase + st'.memoryOffset + total < 2 ^ 32 → RunOK st' total res) :
    RunOK st (w % 2 ^ 32 + total) ((w >>> 32, w % 2 ^ 32) :: res.1, res.2) := by
  obtain ⟨h1, _, h3, h4, h5⟩ := allocateAndReturn_frame data st st' w h
  have hptr : (st.memoryBase + st.memoryOffset) % 2 ^ 32 = st.memoryBase + st.memoryOffset :=
    Nat.mod_eq_of_lt (by omega)
  have hoff : (st.memoryOffset + w % 2 ^ 32) % 2 ^ 32 = st.memoryOffset + w % 2 ^ 32 :=
    Nat.mod_eq_of_lt (by omega)
  rw [hptr] at h1
  rw [hoff] at h4
  refine runOK_cons st st' _ _ total res h1 h3 h4 (fun a ha => h5 a (Or.inl ha)) (ih ?_)
  rw [h3, h4]
  omega

/-- A handler call that stops in a panic, placed in front of a run without
wrap-around. -/
theorem runOK_of_abort (st st' : State) (total : Nat) (res : List (Nat × Nat) × State)
    (h : st'.memoryBase = st.memoryBase ∧ st'.memory = st.memory ∧
      (st'.memoryOffset = st.memoryOffset ∨
        ∃ k, k < 2 ^ 32 ∧ st'.memoryOffset = (st.memoryOffset + k) % 2 ^ 32))
    (hno : st.memoryBase + st.memoryOffset + (advance st st' + total) < 2 ^ 32)
    (ih : st'.memoryBase + st'.memoryOffset + total < 2 ^ 32 → RunOK st' total res) :
    RunOK st (advance st st' + total) res := by
  obtain ⟨hb, hm, ho⟩ := h
  have ho' := offset_of_advance st st' total ho hno
  refine runOK_skip st st' _ total res hb ho' hm (ih ?_)
  rw [hb, ho']
  omega

/-- Without wrap-around a run hands out ranges in increasing, non-touching
order from the starting position of the arena on, and writes no byte below
that position. -/
theorem run_ok (lib : JSONLib) (calls : List Call) :
    ∀ st : State,
      st.memoryBase + st.memoryOffset + reserved lib calls st < 2 ^ 32 →
      RunOK st (reserved lib calls st) (run lib calls st) := by
  induction calls with
  | nil =>
    intro st _
    exact runOK_nil st
  | cons c rest ih =>
    intro st h
    cases c with
    | allocate size =>
      simp only [run, reserved] at h ⊢
      have hptr : (st.memoryBase + st.memoryOffset) % 2 ^ 32
          = st.memoryBase + st.memoryOffset := Nat.mod_eq_of_lt (by omega)
      have hoff : (st.memoryOffset + size) % 2 ^ 32 = st.memoryOffset + size :=
        Nat.mod_eq_of_lt (by omega)
      refine runOK_cons st (allocate size st).2 _ size _ (run lib rest (allocate size st).2)
        (by simp only [allocate, hptr]) rfl (by simp only [allocate, hoff])
        (fun a _ => rfl) (ih _ ?_)
      show st.memoryBase + (st.memoryOffset + size) % 2 ^ 32 +
        reserved lib rest (allocate size st).2 < 2 ^ 32
      rw [hoff]
      omega
    | deallocate ptr size =>
      simp only [run, reserved, deallocate] at h ⊢
      exact ih st h
    | handle_k8s inputPtr inputLen =>
      simp only [run, reserved] at h ⊢
      cases hc : handle_k8s_get lib inputPtr inputLen st with
      | ret w st' =>
        rw [hc] at h
        simp only at h
        obtain ⟨data, hd⟩ := handle_k8s_get_ret lib inputPtr inputLen st st' w hc
        exact runOK_of_ret data st st' w _ (run lib rest st') hd h (ih st')
      | abort st' =>
        rw [hc] at h
        simp only at h
        exact runOK_of_abort st st' _ (run lib rest st')
          (handle_k8s_get_abort lib _ _ st st' hc) h (ih st')
    | handle_status inputPtr inputLen =>
      simp only [run, reserved] at h ⊢
      cases hc : handle_status lib inputPtr inputLen st with
      | ret w st' =>
        rw [hc] at h
        simp only at h
        obtain ⟨data, hd⟩ := handle_status_ret lib inputPtr inputLen st st' w hc
        exact runOK_of_ret data st st' w _ (run lib rest st') hd h (ih st')
      | abort st' =>
        rw [hc] at h
        simp only at h
        exact runOK_of_abort st st' _ (run lib rest st')
          (handle_status_abort lib _ _ st st' hc) h (ih st')

/-! ## Theorems on the arena -/

/-- C1 (as stated, refuted): from the initial arena, `allocate(4294967295)`
followed by `allocate(16)` returns the pointers 4096 and 4095: the second
pointer is below the first pointer plus the first size, and the two ranges
share addresses. -/
theorem allocate_wraps_counterexample :
    (allocateAll [4294967295, 16] (initState (fun _ => 0))).1
        = [(4096, 4294967295), (4095, 16)] ∧
    ¬ Ascending (allocateAll [4294967295, 16] (initState (fun _ => 0))).1 ∧
    ¬ PairwiseDisjoint (allocateAll [4294967295, 16] (initState (fun _ => 0))).1 := by
  refine ⟨by decide, ?_, ?_⟩
  · have e : (allocateAll [4294967295, 16] (initState (fun _ => 0))).1
        = [(4096, 4294967295), (4095, 16)] := by decide
    rw [e]
    simp [Ascending]
  · have e : (allocateAll [4294967295, 16] (initState (fun _ => 0))).1
        = [(4096, 4294967295), (4095, 16)] := by decide
    rw [e]
    simp [PairwiseDisjoint, Overlaps]

/-- C1 (amended): for every arena state and every sequence of sizes such that
`memoryBase + memoryOffset + (sum of the sizes)` stays below `2^32`, each
returned pointer is at least the previous pointer plus the previous size, and
no two returned ranges overlap. -/
theorem allocate_monotone_of_no_wrap (sizes : List Nat) (st : State)
    (h : st.memoryBase + st.memoryOffset + sizes.sum < 2 ^ 32) :
    Ascending (allocateAll sizes st).1 ∧ PairwiseDisjoint (allocateAll sizes st).1 := by
  obtain ⟨_, hp⟩ := allocateAll_sorted sizes st h
  constructor
  · exact List.Pairwise.chain' hp
  · exact hp.imp (fun {r s} hrs => not_overlaps_of_le r s hrs)

theorem allocate_monotone_of_no_wrap_witness :
    Ascending (allocateAll [10, 0, 7] (initState (fun _ => 0))).1 ∧
    PairwiseDisjoint (allocateAll [10, 0, 7] (initState (fun _ => 0))).1 :=
  allocate_monotone_of_no_wrap [10, 0, 7] (initState (fun _ => 0)) (by decide)

/-- C2: `allocate(size)` returns `memoryBase + memoryOffset` (a `uint32` sum)
computed from the offset before the call, leaves the offset equal to the old
offset plus `size` (a `uint32` sum), and changes neither `memoryBase` nor
memory. -/
theorem allocate_spec (size : Nat) (st : State) :
    (allocate size st).1 = (st.memoryBase + st.memoryOffset) % 2 ^ 32 ∧
    (allocate size st).2.memoryOffset = (st.memoryOffset + size) % 2 ^ 32 ∧
    (allocate size st).2.memoryBase = st.memoryBase ∧
    (allocate size st).2.memory = st.memory :=
  ⟨rfl, rfl, rfl, rfl⟩

/-! ## Theorems on marshalling -/

set_option maxRecDepth 100000 in
/-- C3 (code at the failing input): 1025 bytes lie in memory at address
`0x10000`; `readInput` returns them, and `allocateAndReturn` on these bytes
advances the arena offset to 1025 and stops in a panic: no packed word is
returned and no byte is copied. -/
theorem roundtrip_aborts_on_1025_bytes :
    readInput 0x10000 1025 (stateWith (List.replicate 1025 7)) = some (List.replicate 1025 7) ∧
    allocateAndReturn (List.replicate 1025 7) (stateWith (List.replicate 1025 7)) =
      Outcome.abort { stateWith (List.replicate 1025 7) with memoryOffset := 1025 } ∧
    ¬ ReturnsPayload
      (allocateAndReturn (List.replicate 1025 7) (stateWith (List.replicate 1025 7)))
      (List.replicate 1025 7) := by
  have h : allocateAndReturn (List.replicate 1025 7) (stateWith (List.replicate 1025 7)) =
      Outcome.abort { stateWith (List.replicate 1025 7) with memoryOffset := 1025 } := by
    rw [allocateAndReturn_of_gt _ _ (by rw [List.length_replicate]; decide)]
    simp only [allocate, List.length_replicate]
    rfl
  have hr := readInput_stateWith (List.replicate 1025 7) (by rw [List.length_replicate]; decide)
  simp only [List.length_replicate] at hr
  refine ⟨hr, h, ?_⟩
  rw [h]
  exact not_returnsPayload_abort _ _

/-- C4: for `uint32` values `ptr` and `size` the packed word
`uint64(ptr)<<32 | uint64(size)` is `ptr * 2^32 + size`, fits in 64 bits, and
gives back the pair: its high half is `ptr`, its low half is `size`, so two
pairs with the same word are equal; and every word returned by
`allocateAndReturn` is the packed word of the pointer taken from the arena and
the `uint32` length of the payload. -/
theorem packed_word_format (ptr size : Nat) (hp : ptr < 2 ^ 32) (hs : size < 2 ^ 32) :
    packWord ptr size = ptr <<< 32 ||| size ∧
    packWord ptr size < 2 ^ 64 ∧
    packWord ptr size >>> 32 = ptr ∧
    packWord ptr size % 2 ^ 32 = size ∧
    (∀ ptr' size', ptr' < 2 ^ 32 → size' < 2 ^ 32 →
      packWord ptr' size' = packWord ptr size → ptr' = ptr ∧ size' = size) ∧
    (∀ (data : List Byte) (st st' : State) (w : Nat),
      allocateAndReturn data st = Outcome.ret w st' →
      w = packWord (allocate (data.length % 2 ^ 32) st).1 (data.length % 2 ^ 32)) := by
  refine ⟨?_, ?_, packWord_shiftRight ptr size hp hs, packWord_mod ptr size hp hs, ?_, ?_⟩
  · unfold packWord
    rw [Nat.mod_eq_of_lt]
    rw [Nat.shiftLeft_eq]; omega
  · rw [packWord_eq ptr size hp hs]; omega
  · intro ptr' size' hp' hs' heq
    rw [packWord_eq ptr size hp hs, packWord_eq ptr' size' hp' hs'] at heq
    omega
  · intro data st st' w h
    unfold allocateAndReturn at h
    simp only at h
    split at h
    · cases h
    · cases h; rfl

theorem packed_word_format_witness :
    packWord 4096 47 = 4096 <<< 32 ||| 47 ∧
    packWord 4096 47 < 2 ^ 64 ∧
    packWord 4096 47 >>> 32 = 4096 ∧
    packWord 4096 47 % 2 ^ 32 = 47 :=
  ⟨(packed_word_format 4096 47 (by decide) (by decide)).1,
   (packed_word_format 4096 47 (by decide) (by decide)).2.1,
   (packed_word_format 4096 47 (by decide) (by decide)).2.2.1,
   (packed_word_format 4096 47 (by decide) (by decide)).2.2.2.1⟩

/-! ## Theorems on the primary handler -/

/-- C5 (code where the claim fails): when the request carries a string `name`
and the JSON text of the success response is longer than 1024 bytes,
`handle_k8s_get` advances the arena offset and stops in the panic of
`dest[:size]`; it returns no packed word at all. -/
theorem handle_k8s_get_aborts_on_long_response (lib : JSONLib) (inputPtr inputLen : Nat)
    (st : State) (input : List Byte) (request : List (String × JSONValue)) (s : String)
    (bytes : List Byte)
    (hin : readInput inputPtr inputLen st = some input)
    (hu : lib.Unmarshal input = Except.ok request)
    (hn : request.lookup "name" = some (JSONValue.string s))
    (hm : lib.Marshal (successResponse s) = Except.ok bytes)
    (hlen : 1024 < bytes.length) (hlt : bytes.length < 2 ^ 32) :
    handle_k8s_get lib inputPtr inputLen st =
      Outcome.abort { st with memoryOffset := (st.memoryOffset + bytes.length) % 2 ^ 32 } ∧
    ¬ ReturnsPayload (handle_k8s_get lib inputPtr inputLen st) bytes := by
  have h := handle_k8s_get_of_string lib inputPtr inputLen st input request s hin hu hn
  rw [h, respondJSON_abort lib _ st bytes hm hlen hlt]
  exact ⟨rfl, not_returnsPayload_abort _ _⟩

set_option maxRecDepth 1000000 in
theorem handle_k8s_get_aborts_on_long_response_witness :
    handle_k8s_get sampleJSON 0x10000 511 (stateWith (longRequest 500)) =
      Outcome.abort { stateWith (longRequest 500) with memoryOffset := 1050 } ∧
    ¬ ReturnsPayload (handle_k8s_get sampleJSON 0x10000 511 (stateWith (longRequest 500)))
      (encoded sampleJSON (successResponse (String.mk (List.replicate 500 'a')))) :=
  handle_k8s_get_aborts_on_long_response sampleJSON 0x10000 511 (stateWith (longRequest 500))
    (longRequest 500) [("name", JSONValue.string (String.mk (List.replicate 500 'a')))]
    (String.mk (List.replicate 500 'a'))
    (encoded sampleJSON (successResponse (String.mk (List.replicate 500 'a'))))
    (readInput_stateWith (longRequest 500) (by decide)) (by rfl) (by rfl) (by rfl)
    (by decide) (by decide)

set_option maxRecDepth 1000000 in
/-- C6 (code at the failing input): the 611-byte request whose `name` is a
string of 600 letters decodes to a map with that string under `name`, the
JSON text of its success response has 1250 bytes, and `handle_k8s_get`
stops in a panic with the arena offset advanced to 1250: the success response
is not returned. -/
theorem happy_path_aborts_on_long_name :
    sampleJSON.Unmarshal (longRequest 600) =
      Except.ok [("name", JSONValue.string (String.mk (List.replicate 600 'a')))] ∧
    (encoded sampleJSON (successResponse (String.mk (List.replicate 600 'a')))).length = 1250 ∧
    handle_k8s_get sampleJSON 0x10000 611 (stateWith (longRequest 600)) =
      Outcome.abort { stateWith (longRequest 600) with memoryOffset := 1250 } ∧
    ¬ RespondsWith sampleJSON (handle_k8s_get sampleJSON 0x10000 611 (stateWith (longRequest 600)))
      (successResponse (String.mk (List.replicate 600 'a'))) := by
  have hu : sampleJSON.Unmarshal (longRequest 600) =
      Except.ok [("name", JSONValue.string (String.mk (List.replicate 600 'a')))] := by rfl
  have hin : readInput 0x10000 611 (stateWith (longRequest 600)) = some (longRequest 600) :=
    readInput_stateWith (longRequest 600) (by decide)
  have hm : sampleJSON.Marshal (successResponse (String.mk (List.replicate 600 'a'))) =
      Except.ok (encoded sampleJSON (successResponse (String.mk (List.replicate 600 'a')))) := by
    rfl
  have hlen : (encoded sampleJSON (successResponse (String.mk (List.replicate 600 'a')))).length
      = 1250 := by decide
  have h : handle_k8s_get sampleJSON 0x10000 611 (stateWith (longRequest 600)) =
      Outcome.abort { stateWith (longRequest 600) with memoryOffset := 1250 } := by
    rw [handle_k8s_get_of_string sampleJSON 0x10000 611 _ _ _ _ hin hu (by rfl),
      respondJSON_abort sampleJSON _ _ _ hm (by rw [hlen]; decide) (by rw [hlen]; decide), hlen]
    rfl
  refine ⟨hu, hlen, h, ?_⟩
  rintro ⟨bytes, _, hr⟩
  rw [h] at hr
  exact not_returnsPayload_abort _ _ hr

/-- C7 (as stated, does not hold): the request `{}` decodes to a map without
a `name` key, yet in the state whose arena pointer is the last address
`2^32 - 1` the call returns nothing: the 53 bytes of the error text do not fit
below the end of the address space, and the call stops after the arena offset
has advanced by 53. -/
theorem missing_name_stops_at_top :
    readInput 0x10000 2 (stateAtTop (asciiBytes "\x7b\x7d")) = some (asciiBytes "\x7b\x7d") ∧
    sampleJSON.Unmarshal (asciiBytes "\x7b\x7d") = Except.ok [] ∧
    arenaPointer (stateAtTop (asciiBytes "\x7b\x7d")) = 2 ^ 32 - 1 ∧
    handle_k8s_get sampleJSON 0x10000 2 (stateAtTop (asciiBytes "\x7b\x7d")) =
      Outcome.abort { memoryBase := 0x1000, memoryOffset := 4294963199 + 53,
                      memory := writeBytes (fun _ => 0) 0x10000 (asciiBytes "\x7b\x7d") } ∧
    ¬ RespondsWith sampleJSON
      (handle_k8s_get sampleJSON 0x10000 2 (stateAtTop (asciiBytes "\x7b\x7d")))
      (JSONValue.object [("status", JSONValue.string "error"),
        ("error", JSONValue.string "Missing 'name' parameter")]) := by
  have hcall : handle_k8s_get sampleJSON 0x10000 2 (stateAtTop (asciiBytes "\x7b\x7d")) =
      Outcome.abort { memoryBase := 0x1000, memoryOffset := 4294963199 + 53,
                      memory := writeBytes (fun _ => 0) 0x10000 (asciiBytes "\x7b\x7d") } := by
    rfl
  refine ⟨by decide, by rfl, by decide, hcall, ?_⟩
  rintro ⟨bytes, _, hr⟩
  rw [hcall] at hr
  exact not_returnsPayload_abort _ _ hr

/-- C7: when the request decodes to a map without a `name` key, the arena
pointer is not 0 and the error text ends within the 32-bit address space,
`handle_k8s_get` returns a packed word that refers to the JSON text of the map
with exactly the two entries `status = "error"` and
`error = "Missing 'name' parameter"`. The library writes that text in at most
1024 bytes. -/
theorem missing_name_response (lib : JSONLib) (inputPtr inputLen : Nat) (st : State)
    (input : List Byte) (request : List (String × JSONValue)) (bytes : List Byte)
    (hin : readInput inputPtr inputLen st = some input)
    (hu : lib.Unmarshal input = Except.ok request)
    (hn : request.lookup "name" = none)
    (hm : lib.Marshal (JSONValue.object [("status", JSONValue.string "error"),
      ("error", JSONValue.string "Missing 'name' parameter")]) = Except.ok bytes)
    (hlen : bytes.length ≤ 1024)
    (hp : arenaPointer st ≠ 0)
    (hroom : arenaPointer st + bytes.length ≤ 2 ^ 32) :
    RespondsWith lib (handle_k8s_get lib inputPtr inputLen st)
      (JSONValue.object [("status", JSONValue.string "error"),
        ("error", JSONValue.string "Missing 'name' parameter")]) ∧
    ReturnsPayload (handle_k8s_get lib inputPtr inputLen st) bytes := by
  rw [handle_k8s_get_of_missing lib inputPtr inputLen st input request hin hu hn]
  exact ⟨respondError_respondsWith lib _ st bytes hm hlen hp hroom,
    respondError_returnsPayload lib _ st bytes hm hlen hp hroom⟩

theorem missing_name_response_witness :
    RespondsWith sampleJSON
      (handle_k8s_get sampleJSON 0x10000 2 (stateWith (asciiBytes "\x7b\x7d")))
      (JSONValue.object [("status", JSONValue.string "error"),
        ("error", JSONValue.string "Missing 'name' parameter")]) ∧
    ReturnsPayload
      (handle_k8s_get sampleJSON 0x10000 2 (stateWith (asciiBytes "\x7b\x7d")))
      (asciiBytes "\x7b\"error\":\"Missing 'name' parameter\",\"status\":\"error\"\x7d") :=
  missing_name_response sampleJSON 0x10000 2 (stateWith (asciiBytes "\x7b\x7d"))
    (asciiBytes "\x7b\x7d") []
    (asciiBytes "\x7b\"error\":\"Missing 'name' parameter\",\"status\":\"error\"\x7d")
    (by decide) (by rfl) (by rfl) (by rfl) (by decide) (by decide) (by decide)

/-- C8 (as stated, does not hold): the request `{"name": 5}` decodes to a map
whose `name` entry is a number, yet in the state whose arena pointer is the
last address `2^32 - 1` the call returns nothing: the 50 bytes of the error
text do not fit below the end of the address space, and the call stops after
the arena offset has advanced by 50. -/
theorem wrong_type_stops_at_top :
    readInput 0x10000 11 (stateAtTop (asciiBytes "\x7b\"name\": 5\x7d")) =
      some (asciiBytes "\x7b\"name\": 5\x7d") ∧
    sampleJSON.Unmarshal (asciiBytes "\x7b\"name\": 5\x7d") =
      Except.ok [("name", JSONValue.number (Float.ofScientific 5 false 0))] ∧
    arenaPointer (stateAtTop (asciiBytes "\x7b\"name\": 5\x7d")) = 2 ^ 32 - 1 ∧
    handle_k8s_get sampleJSON 0x10000 11 (stateAtTop (asciiBytes "\x7b\"name\": 5\x7d")) =
      Outcome.abort { memoryBase := 0x1000, memoryOffset := 4294963199 + 50,
                      memory := writeBytes (fun _ => 0) 0x10000
                        (asciiBytes "\x7b\"name\": 5\x7d") } ∧
    ¬ RespondsWith sampleJSON
      (handle_k8s_get sampleJSON 0x10000 11 (stateAtTop (asciiBytes "\x7b\"name\": 5\x7d")))
      (JSONValue.object [("status", JSONValue.string "error"),
        ("error", JSONValue.string "Name must be a string")]) := by
  have hcall :
      handle_k8s_get sampleJSON 0x10000 11 (stateAtTop (asciiBytes "\x7b\"name\": 5\x7d")) =
      Outcome.abort { memoryBase := 0x1000, memoryOffset := 4294963199 + 50,
                      memory := writeBytes (fun _ => 0) 0x10000
                        (asciiBytes "\x7b\"name\": 5\x7d") } := by
    rfl
  refine ⟨by decide, by rfl, by decide, hcall, ?_⟩
  rintro ⟨bytes, _, hr⟩
  rw [hcall] at hr
  exact not_returnsPayload_abort _ _ hr

/-- C8: when the request decodes to a map whose `name` entry is present and is
not a string, the arena pointer is not 0 and the error text ends within the
32-bit address space, `handle_k8s_get` returns a packed word that refers to
the JSON text of the map with exactly the two entries `status = "error"` and
`error = "Name must be a string"`. The library writes that text in at most
1024 bytes. -/
theorem wrong_type_response (lib : JSONLib) (inputPtr inputLen : Nat) (st : State)
    (input : List Byte) (request : List (String × JSONValue)) (v : JSONValue)
    (bytes : List Byte)
    (hin : readInput inputPtr inputLen st = some input)
    (hu : lib.Unmarshal input = Except.ok request)
    (hn : request.lookup "name" = some v)
    (hv : ∀ s, v ≠ JSONValue.string s)
    (hm : lib.Marshal (JSONValue.object [("status", JSONValue.string "error"),
      ("error", JSONValue.string "Name must be a string")]) = Except.ok bytes)
    (hlen : bytes.length ≤ 1024)
    (hp : arenaPointer st ≠ 0)
    (hroom : arenaPointer st + bytes.length ≤ 2 ^ 32) :
    RespondsWith lib (handle_k8s_get lib inputPtr inputLen st)
      (JSONValue.object [("status", JSONValue.string "error"),
        ("error", JSONValue.string "Name must be a string")]) ∧
    ReturnsPayload (handle_k8s_get lib inputPtr inputLen st) bytes := by
  rw [handle_k8s_get_of_not_string lib inputPtr inputLen st input request v hin hu hn hv]
  exact ⟨respondError_respondsWith lib _ st bytes hm hlen hp hroom,
    respondError_returnsPayload lib _ st bytes hm hlen hp hroom⟩

theorem wrong_type_response_witness :
    RespondsWith sampleJSON
      (handle_k8s_get sampleJSON 0x10000 11 (stateWith (asciiBytes "\x7b\"name\": 5\x7d")))
      (JSONValue.object [("status", JSONValue.string "error"),
        ("error", JSONValue.string "Name must be a string")]) ∧
    ReturnsPayload
      (handle_k8s_get sampleJSON 0x10000 11 (stateWith (asciiBytes "\x7b\"name\": 5\x7d")))
      (asciiBytes "\x7b\"error\":\"Name must be a string\",\"status\":\"error\"\x7d") :=
  wrong_type_response sampleJSON 0x10000 11 (stateWith (asciiBytes "\x7b\"name\": 5\x7d"))
    (asciiBytes "\x7b\"name\": 5\x7d")
    [("name", JSONValue.number (Float.ofScientific 5 false 0))]
    (JSONValue.number (Float.ofScientific 5 false 0))
    (asciiBytes "\x7b\"error\":\"Name must be a string\",\"status\":\"error\"\x7d")
    (by decide) (by rfl) (by rfl) (fun _ h => JSONValue.noConfusion h) (by rfl) (by decide)
    (by decide) (by decide)

/-- C9 (as stated, does not hold): the input `{"name"` is not accepted by the
JSON decoder, yet in the state whose arena pointer is the last address
`2^32 - 1` the call does stop in a panic and returns nothing: the 47 bytes of
the error text do not fit below the end of the address space, and the call
stops after the arena offset has advanced by 47. -/
theorem malformed_input_stops_at_top :
    readInput 0x10000 7 (stateAtTop (asciiBytes "\x7b\"name\"")) =
      some (asciiBytes "\x7b\"name\"") ∧
    sampleJSON.Unmarshal (asciiBytes "\x7b\"name\"") = Except.error "invalid JSON text" ∧
    arenaPointer (stateAtTop (asciiBytes "\x7b\"name\"")) = 2 ^ 32 - 1 ∧
    handle_k8s_get sampleJSON 0x10000 7 (stateAtTop (asciiBytes "\x7b\"name\"")) =
      Outcome.abort { memoryBase := 0x1000, memoryOffset := 4294963199 + 47,
                      memory := writeBytes (fun _ => 0) 0x10000 (asciiBytes "\x7b\"name\"") } ∧
    ¬ RespondsWith sampleJSON
      (handle_k8s_get sampleJSON 0x10000 7 (stateAtTop (asciiBytes "\x7b\"name\"")))
      (JSONValue.object [("status", JSONValue.string "error"),
        ("error", JSONValue.string "Invalid JSON input")]) := by
  have hcall : handle_k8s_get sampleJSON 0x10000 7 (stateAtTop (asciiBytes "\x7b\"name\"")) =
      Outcome.abort { memoryBase := 0x1000, memoryOffset := 4294963199 + 47,
                      memory := writeBytes (fun _ => 0) 0x10000 (asciiBytes "\x7b\"name\"") } := by
    rfl
  refine ⟨by decide, by rfl, by decide, hcall, ?_⟩
  rintro ⟨bytes, _, hr⟩
  rw [hcall] at hr
  exact not_returnsPayload_abort _ _ hr

/-- C9: when the input is not accepted by the JSON decoder, the arena pointer
is not 0 and the error text ends within the 32-bit address space,
`handle_k8s_get` does not stop in a panic: it returns a packed word that
refers to the JSON text of the map with exactly the two entries
`status = "error"` and `error = "Invalid JSON input"`. The library writes that
text in at most 1024 bytes. -/
theorem malformed_input_response (lib : JSONLib) (inputPtr inputLen : Nat) (st : State)
    (input : List Byte) (e : String) (bytes : List Byte)
    (hin : readInput inputPtr inputLen st = some input)
    (hu : lib.Unmarshal input = Except.error e)
    (hm : lib.Marshal (JSONValue.object [("status", JSONValue.string "error"),
      ("error", JSONValue.string "Invalid JSON input")]) = Except.ok bytes)
    (hlen : bytes.length ≤ 1024)
    (hp : arenaPointer st ≠ 0)
    (hroom : arenaPointer st + bytes.length ≤ 2 ^ 32) :
    RespondsWith lib (handle_k8s_get lib inputPtr inputLen st)
      (JSONValue.object [("status", JSONValue.string "error"),
        ("error", JSONValue.string "Invalid JSON input")]) ∧
    ReturnsPayload (handle_k8s_get lib inputPtr inputLen st) bytes := by
  rw [handle_k8s_get_of_error lib inputPtr inputLen st input e hin hu]
  exact ⟨respondError_respondsWith lib _ st bytes hm hlen hp hroom,
    respondError_returnsPayload lib _ st bytes hm hlen hp hroom⟩

theorem malformed_input_response_witness :
    RespondsWith sampleJSON
      (handle_k8s_get sampleJSON 0x10000 7 (stateWith (asciiBytes "\x7b\"name\"")))
      (JSONValue.object [("status", JSONValue.string "error"),
        ("error", JSONValue.string "Invalid JSON input")]) ∧
    ReturnsPayload
      (handle_k8s_get sampleJSON 0x10000 7 (stateWith (asciiBytes "\x7b\"name\"")))
      (asciiBytes "\x7b\"error\":\"Invalid JSON input\",\"status\":\"error\"\x7d") :=
  malformed_input_response sampleJSON 0x10000 7 (stateWith (asciiBytes "\x7b\"name\""))
    (asciiBytes "\x7b\"name\"") "invalid JSON text"
    (asciiBytes "\x7b\"error\":\"Invalid JSON input\",\"status\":\"error\"\x7d")
    (by decide) (by rfl) (by rfl) (by decide) (by decide) (by decide)

/-- C10 (as stated, does not hold): the request `{"name":"World"}` decodes to
a map whose `name` entry is a string, yet in the state whose arena pointer is
the last address `2^32 - 1` the call returns no response at all, so none with
status `success`: the 60 bytes of the response text do not fit below the end
of the address space, and the call stops after the arena offset has advanced
by 60. -/
theorem valid_request_stops_at_top :
    readInput 0x10000 16 (stateAtTop (asciiBytes "\x7b\"name\":\"World\"\x7d")) =
      some (asciiBytes "\x7b\"name\":\"World\"\x7d") ∧
    ValidRequest sampleJSON (asciiBytes "\x7b\"name\":\"World\"\x7d") ∧
    arenaPointer (stateAtTop (asciiBytes "\x7b\"name\":\"World\"\x7d")) = 2 ^ 32 - 1 ∧
    handle_k8s_get sampleJSON 0x10000 16
        (stateAtTop (asciiBytes "\x7b\"name\":\"World\"\x7d")) =
      Outcome.abort { memoryBase := 0x1000, memoryOffset := 4294963199 + 60,
                      memory := writeBytes (fun _ => 0) 0x10000
                        (asciiBytes "\x7b\"name\":\"World\"\x7d") } ∧
    ∀ payload, ¬ ReturnsPayload
      (handle_k8s_get sampleJSON 0x10000 16
        (stateAtTop (asciiBytes "\x7b\"name\":\"World\"\x7d"))) payload := by
  have hcall : handle_k8s_get sampleJSON 0x10000 16
        (stateAtTop (asciiBytes "\x7b\"name\":\"World\"\x7d")) =
      Outcome.abort { memoryBase := 0x1000, memoryOffset := 4294963199 + 60,
                      memory := writeBytes (fun _ => 0) 0x10000
                        (asciiBytes "\x7b\"name\":\"World\"\x7d") } := by
    rfl
  refine ⟨by decide, ⟨[("name", JSONValue.string "World")], "World", by rfl, by rfl⟩,
    by decide, hcall, ?_⟩
  intro payload hr
  rw [hcall] at hr
  exact not_returnsPayload_abort _ _ hr

/-- C10: let the input be readable, the arena pointer not 0, and let the
library write each response text that the input can lead to (the success
response for its `name`, the three error responses) in at most 1024 bytes that
end within the 32-bit address space. Then `handle_k8s_get` returns a packed
word that refers to the JSON text of one response map. That map has status
`success` if and only if the input decodes to a map whose `name` entry is a
string, and it is then the map of `status = "success"`,
`message = "Hello <name>!"` and `name`; in every other case it is the map of
exactly the two entries `status = "error"` and `error = message` for one of
the three messages; no other status occurs. -/
theorem success_iff_valid_request (lib : JSONLib) (inputPtr inputLen : Nat) (st : State)
    (input : List Byte)
    (hin : readInput inputPtr inputLen st = some input)
    (hp : arenaPointer st ≠ 0)
    (hs : ∀ request s, lib.Unmarshal input = Except.ok request →
      request.lookup "name" = some (JSONValue.string s) →
      ∃ bytes, lib.Marshal (JSONValue.object [("status", JSONValue.string "success"),
          ("message", JSONValue.string ("Hello " ++ s ++ "!")),
          ("name", JSONValue.string s)]) = Except.ok bytes ∧
        bytes.length ≤ 1024 ∧ arenaPointer st + bytes.length ≤ 2 ^ 32)
    (he : ∀ message ∈ ["Invalid JSON input", "Missing 'name' parameter",
        "Name must be a string"],
      ∃ bytes, lib.Marshal (JSONValue.object [("status", JSONValue.string "error"),
          ("error", JSONValue.string message)]) = Except.ok bytes ∧
        bytes.length ≤ 1024 ∧ arenaPointer st + bytes.length ≤ 2 ^ 32) :
    ∃ response bytes,
      lib.Marshal response = Except.ok bytes ∧
      ReturnsPayload (handle_k8s_get lib inputPtr inputLen st) bytes ∧
      (statusOf response = some "success" ↔ ValidRequest lib input) ∧
      (∀ request s, lib.Unmarshal input = Except.ok request →
        request.lookup "name" = some (JSONValue.string s) →
        response = JSONValue.object [("status", JSONValue.string "success"),
          ("message", JSONValue.string ("Hello " ++ s ++ "!")),
          ("name", JSONValue.string s)]) ∧
      (¬ ValidRequest lib input →
        ∃ message ∈ ["Invalid JSON input", "Missing 'name' parameter",
          "Name must be a string"],
        response = JSONValue.object [("status", JSONValue.string "error"),
          ("error", JSONValue.string message)]) ∧
      (statusOf response = some "success" ∨ statusOf response = some "error") := by
  have herr : ∀ message ∈ ["Invalid JSON input", "Missing 'name' parameter",
        "Name must be a string"], ¬ ValidRequest lib input →
      handle_k8s_get lib inputPtr inputLen st = respondError lib message st →
      ∃ response bytes,
        lib.Marshal response = Except.ok bytes ∧
        ReturnsPayload (handle_k8s_get lib inputPtr inputLen st) bytes ∧
        (statusOf response = some "success" ↔ ValidRequest lib input) ∧
        (∀ request s, lib.Unmarshal input = Except.ok request →
          request.lookup "name" = some (JSONValue.string s) →
          response = JSONValue.object [("status", JSONValue.string "success"),
            ("message", JSONValue.string ("Hello " ++ s ++ "!")),
            ("name", JSONValue.string s)]) ∧
        (¬ ValidRequest lib input →
          ∃ message ∈ ["Invalid JSON input", "Missing 'name' parameter",
            "Name must be a string"],
          response = JSONValue.object [("status", JSONValue.string "error"),
            ("error", JSONValue.string message)]) ∧
        (statusOf response = some "success" ∨ statusOf response = some "error") := by
    intro message hmem hnv h
    obtain ⟨bytes, hm, hlen, hroom⟩ := he message hmem
    refine ⟨errorResponse message, bytes, hm, ?_, ?_, ?_, ?_, ?_⟩
    · rw [h]
      exact respondError_returnsPayload lib message st bytes hm hlen hp hroom
    · rw [statusOf_errorResponse]
      constructor
      · intro hc; exact absurd hc (by decide)
      · intro hc; exact absurd hc hnv
    · intro request s hu hn
      exact absurd ⟨request, s, hu, hn⟩ hnv
    · intro _; exact ⟨message, hmem, rfl⟩
    · exact Or.inr (statusOf_errorResponse message)
  have hcases : (∃ e, lib.Unmarshal input = Except.error e) ∨
      (∃ request, lib.Unmarshal input = Except.ok request) := by
    cases lib.Unmarshal input with
    | error e => exact Or.inl ⟨e, rfl⟩
    | ok request => exact Or.inr ⟨request, rfl⟩
  rcases hcases with ⟨e, hu⟩ | ⟨request, hu⟩
  · refine herr "Invalid JSON input" (by simp) ?_
      (handle_k8s_get_of_error lib _ _ st input e hin hu)
    rintro ⟨request, s, hr, _⟩
    rw [hu] at hr
    cases hr
  · cases hn : request.lookup "name" with
    | none =>
      refine herr "Missing 'name' parameter" (by simp) ?_
        (handle_k8s_get_of_missing lib _ _ st input request hin hu hn)
      rintro ⟨request', s, hr, hs'⟩
      rw [hu] at hr
      cases hr
      rw [hn] at hs'
      cases hs'
    | some v =>
      by_cases hv : ∃ s, v = JSONValue.string s
      · obtain ⟨s, rfl⟩ := hv
        have hvalid : ValidRequest lib input := ⟨request, s, hu, hn⟩
        obtain ⟨bytes, hm, hlen, hroom⟩ := hs request s hu hn
        refine ⟨successResponse s, bytes, hm, ?_, ?_, ?_, ?_, ?_⟩
        · rw [handle_k8s_get_of_string lib _ _ st input request s hin hu hn]
          exact respondJSON_returnsPayload lib _ st bytes hm hlen hp hroom
        · rw [statusOf_successResponse]
          exact ⟨fun _ => hvalid, fun _ => rfl⟩
        · intro request' s' hu' hn'
          rw [hu] at hu'
          cases hu'
          rw [hn] at hn'
          cases hn'
          rfl
        · intro hc; exact absurd hvalid hc
        · exact Or.inl (statusOf_successResponse s)
      · have hv' : ∀ s, v ≠ JSONValue.string s := fun s hs' => hv ⟨s, hs'⟩
        refine herr "Name must be a string" (by simp) ?_
          (handle_k8s_get_of_not_string lib _ _ st input request v hin hu hn hv')
        rintro ⟨request', s, hr, hs'⟩
        rw [hu] at hr
        cases hr
        rw [hn] at hs'
        cases hs'
        exact hv' s rfl

theorem success_iff_valid_request_witness :
    ReturnsPayload
      (handle_k8s_get sampleJSON 0x10000 16
        (stateWith (asciiBytes "\x7b\"name\":\"World\"\x7d")))
      (asciiBytes
        "\x7b\"message\":\"Hello World!\",\"name\":\"World\",\"status\":\"success\"\x7d") ∧
    sampleJSON.Marshal (JSONValue.object [("status", JSONValue.string "success"),
        ("message", JSONValue.string "Hello World!"), ("name", JSONValue.string "World")]) =
      Except.ok (asciiBytes
        "\x7b\"message\":\"Hello World!\",\"name\":\"World\",\"status\":\"success\"\x7d") ∧
    ValidRequest sampleJSON (asciiBytes "\x7b\"name\":\"World\"\x7d") := by
  have h :=
    success_iff_valid_request sampleJSON 0x10000 16
      (stateWith (asciiBytes "\x7b\"name\":\"World\"\x7d"))
      (asciiBytes "\x7b\"name\":\"World\"\x7d") (by decide) (by decide)
      (by
        intro request s hu hn
        have hreq : sampleJSON.Unmarshal (asciiBytes "\x7b\"name\":\"World\"\x7d") =
            Except.ok [("name", JSONValue.string "World")] := by rfl
        rw [hreq] at hu
        cases hu
        have hname : List.lookup "name" [("name", JSONValue.string "World")] =
            some (JSONValue.string "World") := by rfl
        rw [hname] at hn
        cases hn
        exact ⟨asciiBytes
          "\x7b\"message\":\"Hello World!\",\"name\":\"World\",\"status\":\"success\"\x7d",
          by rfl, by decide, by decide⟩)
      (by
        intro message hmem
        simp only [List.mem_cons, List.mem_singleton, List.mem_nil_iff, or_false] at hmem
        rcases hmem with rfl | rfl | rfl
        · exact ⟨asciiBytes "\x7b\"error\":\"Invalid JSON input\",\"status\":\"error\"\x7d",
            by rfl, by decide, by decide⟩
        · exact ⟨asciiBytes
            "\x7b\"error\":\"Missing 'name' parameter\",\"status\":\"error\"\x7d",
            by rfl, by decide, by decide⟩
        · exact ⟨asciiBytes "\x7b\"error\":\"Name must be a string\",\"status\":\"error\"\x7d",
            by rfl, by decide, by decide⟩)
  obtain ⟨response, bytes, hm, hr, hiff, hsucc, _, _⟩ := h
  have hresp := hsucc [("name", JSONValue.string "World")] "World" (by rfl) (by rfl)
  have hvalid := hiff.1 (by rw [hresp]; rfl)
  rw [hresp] at hm
  have hb : sampleJSON.Marshal (JSONValue.object [("status", JSONValue.string "success"),
      ("message", JSONValue.string ("Hello " ++ "World" ++ "!")),
      ("name", JSONValue.string "World")]) = Except.ok (asciiBytes
      "\x7b\"message\":\"Hello World!\",\"name\":\"World\",\"status\":\"success\"\x7d") := by
    rfl
  rw [hb] at hm
  cases hm
  exact ⟨hr, by rfl, hvalid⟩

/-- C13: two requests that decode to maps with the same `name` entry (both
without one, or both with the same value) make `handle_k8s_get` hand the same
bytes to `allocateAndReturn`, whatever else the maps contain and whatever the
states are; the bytes are a function of the `name` entry alone. Whenever both
calls return, the payloads returned are equal; made in the same state the two
calls have the same outcome; made in states with the same `memoryBase` and
`memoryOffset` (the memory may differ, as it holds the requests) one call
returns a given payload exactly when the other does; and each call returns
those bytes when they are at most 1024, the arena pointer of its state is not
0 and the bytes end within the 32-bit address space. -/
theorem extra_fields_ignored (lib : JSONLib) (inputPtr1 inputLen1 inputPtr2 inputLen2 : Nat)
    (st1 st2 : State) (input1 input2 : List Byte)
    (request1 request2 : List (String × JSONValue))
    (hin1 : readInput inputPtr1 inputLen1 st1 = some input1)
    (hin2 : readInput inputPtr2 inputLen2 st2 = some input2)
    (hu1 : lib.Unmarshal input1 = Except.ok request1)
    (hu2 : lib.Unmarshal input2 = Except.ok request2)
    (hname : request1.lookup "name" = request2.lookup "name") :
    handle_k8s_get lib inputPtr1 inputLen1 st1 =
      allocateAndReturn (responseBytes lib (request1.lookup "name")) st1 ∧
    handle_k8s_get lib inputPtr2 inputLen2 st2 =
      allocateAndReturn (responseBytes lib (request1.lookup "name")) st2 ∧
    (∀ payload1 payload2,
      ReturnsPayload (handle_k8s_get lib inputPtr1 inputLen1 st1) payload1 →
      ReturnsPayload (handle_k8s_get lib inputPtr2 inputLen2 st2) payload2 →
      payload1 = payload2) ∧
    (st1 = st2 →
      handle_k8s_get lib inputPtr1 inputLen1 st1 = handle_k8s_get lib inputPtr2 inputLen2 st2) ∧
    (st1.memoryBase = st2.memoryBase → st1.memoryOffset = st2.memoryOffset →
      ∀ payload, ReturnsPayload (handle_k8s_get lib inputPtr1 inputLen1 st1) payload ↔
        ReturnsPayload (handle_k8s_get lib inputPtr2 inputLen2 st2) payload) ∧
    ((responseBytes lib (request1.lookup "name")).length ≤ 1024 →
      (arenaPointer st1 ≠ 0 →
        arenaPointer st1 + (responseBytes lib (request1.lookup "name")).length ≤ 2 ^ 32 →
        ReturnsPayload (handle_k8s_get lib inputPtr1 inputLen1 st1)
          (responseBytes lib (request1.lookup "name"))) ∧
      (arenaPointer st2 ≠ 0 →
        arenaPointer st2 + (responseBytes lib (request1.lookup "name")).length ≤ 2 ^ 32 →
        ReturnsPayload (handle_k8s_get lib inputPtr2 inputLen2 st2)
          (responseBytes lib (request1.lookup "name")))) := by
  have h1 := handle_k8s_get_eq_responseBytes lib _ _ st1 input1 request1 hin1 hu1
  have h2 := handle_k8s_get_eq_responseBytes lib _ _ st2 input2 request2 hin2 hu2
  rw [← hname] at h2
  refine ⟨h1, h2, ?_, ?_, ?_, ?_⟩
  · intro payload1 payload2 hr1 hr2
    rw [h1] at hr1
    rw [h2] at hr2
    rw [returnsPayload_allocateAndReturn_eq _ st1 payload1 hr1,
      returnsPayload_allocateAndReturn_eq _ st2 payload2 hr2]
  · intro hst
    rw [h1, h2, hst]
  · intro hbase hoff payload
    have hptr : arenaPointer st1 = arenaPointer st2 := by
      unfold arenaPointer
      rw [hbase, hoff]
    rw [h1, h2, returnsPayload_allocateAndReturn_iff, returnsPayload_allocateAndReturn_iff,
      hptr]
  · intro hlen
    rw [h1, h2]
    exact ⟨fun hp hroom => returnsPayload_allocateAndReturn _ st1 hlen hp hroom,
      fun hp hroom => returnsPayload_allocateAndReturn _ st2 hlen hp hroom⟩

theorem extra_fields_ignored_witness :
    ReturnsPayload
      (handle_k8s_get sampleJSON 0x10000 16
        (stateWith (asciiBytes "\x7b\"name\":\"World\"\x7d")))
      (asciiBytes
        "\x7b\"message\":\"Hello World!\",\"name\":\"World\",\"status\":\"success\"\x7d") ∧
    ReturnsPayload
      (handle_k8s_get sampleJSON 0x10000 40
        (stateWith (asciiBytes "\x7b\"extra\":[true],\"name\":\"World\",\"z\":null\x7d")))
      (asciiBytes
        "\x7b\"message\":\"Hello World!\",\"name\":\"World\",\"status\":\"success\"\x7d") :=
  ⟨((extra_fields_ignored sampleJSON 0x10000 16 0x10000 40
      (stateWith (asciiBytes "\x7b\"name\":\"World\"\x7d"))
      (stateWith (asciiBytes "\x7b\"extra\":[true],\"name\":\"World\",\"z\":null\x7d"))
      (asciiBytes "\x7b\"name\":\"World\"\x7d")
      (asciiBytes "\x7b\"extra\":[true],\"name\":\"World\",\"z\":null\x7d")
      [("name", JSONValue.string "World")]
      [("extra", JSONValue.array [JSONValue.bool true]), ("name", JSONValue.string "World"),
        ("z", JSONValue.null)]
      (by decide) (by decide) (by rfl) (by rfl) (by rfl)).2.2.2.2.2 (by decide)).1
        (by decide) (by decide),
   ((extra_fields_ignored sampleJSON 0x10000 16 0x10000 40
      (stateWith (asciiBytes "\x7b\"name\":\"World\"\x7d"))
      (stateWith (asciiBytes "\x7b\"extra\":[true],\"name\":\"World\",\"z\":null\x7d"))
      (asciiBytes "\x7b\"name\":\"World\"\x7d")
      (asciiBytes "\x7b\"extra\":[true],\"name\":\"World\",\"z\":null\x7d")
      [("name", JSONValue.string "World")]
      [("extra", JSONValue.array [JSONValue.bool true]), ("name", JSONValue.string "World"),
        ("z", JSONValue.null)]
      (by decide) (by decide) (by rfl) (by rfl) (by rfl)).2.2.2.2.2 (by decide)).2
        (by decide) (by decide)⟩

/-- C17 (as stated, does not hold in every state): the input `null` is valid
JSON and not an object, yet in the state whose arena pointer is the last
address `2^32 - 1` the call reports nothing: the 53 bytes of the error text do
not fit below the end of the address space, and the call stops after the arena
offset has advanced by 53. -/
theorem null_input_stops_at_top :
    readInput 0x10000 4 (stateAtTop (asciiBytes "null")) = some (asciiBytes "null") ∧
    sampleDecode (asciiBytes "null") = some JSONValue.null ∧
    arenaPointer (stateAtTop (asciiBytes "null")) = 2 ^ 32 - 1 ∧
    handle_k8s_get sampleJSON 0x10000 4 (stateAtTop (asciiBytes "null")) =
      Outcome.abort { memoryBase := 0x1000, memoryOffset := 4294963199 + 53,
                      memory := writeBytes (fun _ => 0) 0x10000 (asciiBytes "null") } ∧
    ∀ payload, ¬ ReturnsPayload
      (handle_k8s_get sampleJSON 0x10000 4 (stateAtTop (asciiBytes "null"))) payload := by
  have hcall : handle_k8s_get sampleJSON 0x10000 4 (stateAtTop (asciiBytes "null")) =
      Outcome.abort { memoryBase := 0x1000, memoryOffset := 4294963199 + 53,
                      memory := writeBytes (fun _ => 0) 0x10000 (asciiBytes "null") } := by
    rfl
  refine ⟨by decide, by rfl, by decide, hcall, ?_⟩
  intro payload hr
  rw [hcall] at hr
  exact not_returnsPayload_abort _ _ hr

/-- C17: let the input be one JSON value that is not an object, read by the
decoder as `encoding/json` reads it, and let the arena pointer be not 0 and at
most `2^32 - 53`. When the value is `null` the decoder leaves the map empty
without an error and `handle_k8s_get` returns the text
`{"error":"Missing 'name' parameter","status":"error"}`, the JSON text of the
map with the two entries `status = "error"` and
`error = "Missing 'name' parameter"`; when it is an array, a string, a number
or a boolean the decoder reports an error and the call returns the text
`{"error":"Invalid JSON input","status":"error"}`, the JSON text of the map
with the two entries `status = "error"` and `error = "Invalid JSON input"`. -/
theorem non_object_inputs (inputPtr inputLen : Nat) (st : State) (input : List Byte)
    (v : JSONValue)
    (hin : readInput inputPtr inputLen st = some input)
    (hv : sampleDecode input = some v)
    (hobj : isObject v = false)
    (hp : arenaPointer st ≠ 0)
    (hroom : arenaPointer st + 53 ≤ 2 ^ 32) :
    (isNull v = true →
      sampleJSON.Unmarshal input = Except.ok [] ∧
      ReturnsPayload (handle_k8s_get sampleJSON inputPtr inputLen st)
        (asciiBytes "\x7b\"error\":\"Missing 'name' parameter\",\"status\":\"error\"\x7d") ∧
      RespondsWith sampleJSON (handle_k8s_get sampleJSON inputPtr inputLen st)
        (JSONValue.object [("status", JSONValue.string "error"),
          ("error", JSONValue.string "Missing 'name' parameter")])) ∧
    (isNull v = false →
      (∃ e, sampleJSON.Unmarshal input = Except.error e) ∧
      ReturnsPayload (handle_k8s_get sampleJSON inputPtr inputLen st)
        (asciiBytes "\x7b\"error\":\"Invalid JSON input\",\"status\":\"error\"\x7d") ∧
      RespondsWith sampleJSON (handle_k8s_get sampleJSON inputPtr inputLen st)
        (JSONValue.object [("status", JSONValue.string "error"),
          ("error", JSONValue.string "Invalid JSON input")])) := by
  have hu := sampleUnmarshal_of_sampleDecode input v hv
  have hmissing : sampleJSON.Marshal (errorResponse "Missing 'name' parameter") =
      Except.ok (asciiBytes
        "\x7b\"error\":\"Missing 'name' parameter\",\"status\":\"error\"\x7d") := by rfl
  have hinvalid : sampleJSON.Marshal (errorResponse "Invalid JSON input") =
      Except.ok (asciiBytes "\x7b\"error\":\"Invalid JSON input\",\"status\":\"error\"\x7d") := by
    rfl
  have hlm : (asciiBytes
      "\x7b\"error\":\"Missing 'name' parameter\",\"status\":\"error\"\x7d").length = 53 := by
    decide
  have hli : (asciiBytes
      "\x7b\"error\":\"Invalid JSON input\",\"status\":\"error\"\x7d").length = 47 := by
    decide
  have hother : (∃ e, sampleJSON.Unmarshal input = Except.error e) →
      (∃ e, sampleJSON.Unmarshal input = Except.error e) ∧
      ReturnsPayload (handle_k8s_get sampleJSON inputPtr inputLen st)
        (asciiBytes "\x7b\"error\":\"Invalid JSON input\",\"status\":\"error\"\x7d") ∧
      RespondsWith sampleJSON (handle_k8s_get sampleJSON inputPtr inputLen st)
        (JSONValue.object [("status", JSONValue.string "error"),
          ("error", JSONValue.string "Invalid JSON input")]) := by
    rintro ⟨e, he⟩
    rw [handle_k8s_get_of_error sampleJSON inputPtr inputLen st input e hin he]
    exact ⟨⟨e, he⟩,
      respondError_returnsPayload sampleJSON _ st _ hinvalid (by omega) hp (by omega),
      respondError_respondsWith sampleJSON _ st _ hinvalid (by omega) hp (by omega)⟩
  cases v with
  | object fields => cases hobj
  | null =>
    refine ⟨fun _ => ?_, fun hc => Bool.noConfusion hc⟩
    rw [handle_k8s_get_of_missing sampleJSON inputPtr inputLen st input [] hin hu rfl]
    exact ⟨hu,
      respondError_returnsPayload sampleJSON _ st _ hmissing (by omega) hp (by omega),
      respondError_respondsWith sampleJSON _ st _ hmissing (by omega) hp (by omega)⟩
  | bool b => exact ⟨fun hc => Bool.noConfusion hc, fun _ => hother ⟨_, hu⟩⟩
  | number f => exact ⟨fun hc => Bool.noConfusion hc, fun _ => hother ⟨_, hu⟩⟩
  | string t => exact ⟨fun hc => Bool.noConfusion hc, fun _ => hother ⟨_, hu⟩⟩
  | array items => exact ⟨fun hc => Bool.noConfusion hc, fun _ => hother ⟨_, hu⟩⟩

theorem non_object_inputs_witness :
    ReturnsPayload
      (handle_k8s_get sampleJSON 0x10000 4 (stateWith (asciiBytes "null")))
      (asciiBytes "\x7b\"error\":\"Missing 'name' parameter\",\"status\":\"error\"\x7d") ∧
    ReturnsPayload
      (handle_k8s_get sampleJSON 0x10000 6 (stateWith (asciiBytes "[true]")))
      (asciiBytes "\x7b\"error\":\"Invalid JSON input\",\"status\":\"error\"\x7d") ∧
    ReturnsPayload
      (handle_k8s_get sampleJSON 0x10000 6 (stateWith (asciiBytes "\"name\"")))
      (asciiBytes "\x7b\"error\":\"Invalid JSON input\",\"status\":\"error\"\x7d") ∧
    ReturnsPayload
      (handle_k8s_get sampleJSON 0x10000 1 (stateWith (asciiBytes "5")))
      (asciiBytes "\x7b\"error\":\"Invalid JSON input\",\"status\":\"error\"\x7d") ∧
    ReturnsPayload
      (handle_k8s_get sampleJSON 0x10000 5 (stateWith (asciiBytes "false")))
      (asciiBytes "\x7b\"error\":\"Invalid JSON input\",\"status\":\"error\"\x7d") :=
  ⟨((non_object_inputs 0x10000 4 (stateWith (asciiBytes "null"))
      (asciiBytes "null") JSONValue.null
      (by decide) (by rfl) (by rfl) (by decide) (by decide)).1 (by rfl)).2.1,
   ((non_object_inputs 0x10000 6 (stateWith (asciiBytes "[true]"))
      (asciiBytes "[true]") (JSONValue.array [JSONValue.bool true])
      (by decide) (by rfl) (by rfl) (by decide) (by decide)).2 (by rfl)).2.1,
   ((non_object_inputs 0x10000 6 (stateWith (asciiBytes "\"name\""))
      (asciiBytes "\"name\"") (JSONValue.string "name")
      (by decide) (by rfl) (by rfl) (by decide) (by decide)).2 (by rfl)).2.1,
   ((non_object_inputs 0x10000 1 (stateWith (asciiBytes "5"))
      (asciiBytes "5") (JSONValue.number (Float.ofScientific 5 false 0))
      (by decide) (by rfl) (by rfl) (by decide) (by decide)).2 (by rfl)).2.1,
   ((non_object_inputs 0x10000 5 (stateWith (asciiBytes "false"))
      (asciiBytes "false") (JSONValue.bool false)
      (by decide) (by rfl) (by rfl) (by decide) (by decide)).2 (by rfl)).2.1⟩

/-! ## Theorems on the status handler and on `deallocate` -/

/-- C11 (as stated, does not hold for every arena state): in the state reached
from a fresh instance by `allocate(4294963199)`, whose arena pointer is the
last address `2^32 - 1`, `handle_status` returns no word: the 78 bytes of the
status text do not fit below the end of the address space, and the call stops
after the arena offset has advanced by 78. -/
theorem status_stops_at_top :
    arenaPointer (stateAtTop []) = 2 ^ 32 - 1 ∧
    handle_status sampleJSON 0 0 (stateAtTop []) =
      Outcome.abort { memoryBase := 0x1000, memoryOffset := 4294963199 + 78,
                      memory := writeBytes (fun _ => 0) 0x10000 [] } ∧
    ∀ payload, ¬ ReturnsPayload (handle_status sampleJSON 0 0 (stateAtTop [])) payload := by
  have hcall : handle_status sampleJSON 0 0 (stateAtTop []) =
      Outcome.abort { memoryBase := 0x1000, memoryOffset := 4294963199 + 78,
                      memory := writeBytes (fun _ => 0) 0x10000 [] } := by
    rfl
  refine ⟨by decide, hcall, ?_⟩
  intro payload hr
  rw [hcall] at hr
  exact not_returnsPayload_abort _ _ hr

/-- C11: for all arguments and every state whose arena pointer is not 0 and
leaves room for two copies of the status text below the end of the 32-bit
address space, `handle_status` returns a packed word whose bytes are the JSON
text of the fixed record `{status: "healthy", plugin: "k8s-get", version:
"1.0.1", endpoints: ["/k8s"]}`; a second call, made with any arguments in the
state left by the first, returns a word whose bytes are the same text; the
result does not depend on the arguments; the `endpoints` sequence has one
element. The library writes that text in at most 1024 bytes. -/
theorem status_idempotent (lib : JSONLib) (inputPtr inputLen inputPtr' inputLen' : Nat)
    (st : State) (bytes : List Byte)
    (hm : lib.Marshal (JSONValue.object [("status", JSONValue.string "healthy"),
      ("plugin", JSONValue.string "k8s-get"), ("version", JSONValue.string "1.0.1"),
      ("endpoints", JSONValue.array [JSONValue.string "/k8s"])]) = Except.ok bytes)
    (hlen : bytes.length ≤ 1024)
    (hp : arenaPointer st ≠ 0)
    (hroom : arenaPointer st + 2 * bytes.length ≤ 2 ^ 32) :
    (∃ w st1 w' st2,
      handle_status lib inputPtr inputLen st = Outcome.ret w st1 ∧
      readBytes st1.memory (w >>> 32) (w % 2 ^ 32) = bytes ∧
      handle_status lib inputPtr' inputLen' st1 = Outcome.ret w' st2 ∧
      readBytes st2.memory (w' >>> 32) (w' % 2 ^ 32) = bytes) ∧
    RespondsWith lib (handle_status lib inputPtr inputLen st)
      (JSONValue.object [("status", JSONValue.string "healthy"),
        ("plugin", JSONValue.string "k8s-get"), ("version", JSONValue.string "1.0.1"),
        ("endpoints", JSONValue.array [JSONValue.string "/k8s"])]) ∧
    handle_status lib inputPtr' inputLen' st = handle_status lib inputPtr inputLen st ∧
    statusOf (JSONValue.object [("status", JSONValue.string "healthy"),
      ("plugin", JSONValue.string "k8s-get"), ("version", JSONValue.string "1.0.1"),
      ("endpoints", JSONValue.array [JSONValue.string "/k8s"])]) = some "healthy" ∧
    endpointsOf (JSONValue.object [("status", JSONValue.string "healthy"),
      ("plugin", JSONValue.string "k8s-get"), ("version", JSONValue.string "1.0.1"),
      ("endpoints", JSONValue.array [JSONValue.string "/k8s"])]) =
        some [JSONValue.string "/k8s"] := by
  have hstatus : ∀ (p l : Nat) (s : State),
      handle_status lib p l s = allocateAndReturn bytes s :=
    fun p l s => respondJSON_of_ok lib statusResponse s bytes hm
  have hfirst := allocateAndReturn_of_le bytes st hlen hp (by omega)
  have hp1 : arenaPointer
      { memoryBase := st.memoryBase,
        memoryOffset := (st.memoryOffset + bytes.length) % 2 ^ 32,
        memory := writeBytes st.memory ((st.memoryBase + st.memoryOffset) % 2 ^ 32) bytes }
      ≠ 0 := by
    unfold arenaPointer at hp hroom ⊢
    simp only []
    omega
  have hroom1 : arenaPointer
      { memoryBase := st.memoryBase,
        memoryOffset := (st.memoryOffset + bytes.length) % 2 ^ 32,
        memory := writeBytes st.memory ((st.memoryBase + st.memoryOffset) % 2 ^ 32) bytes }
      + bytes.length ≤ 2 ^ 32 := by
    unfold arenaPointer at hp hroom ⊢
    simp only []
    omega
  have hret := returnsPayload_allocateAndReturn bytes st hlen hp (by omega)
  refine ⟨?_, ⟨bytes, hm, ?_⟩, rfl, ?_, ?_⟩
  · obtain ⟨w, st1, h1, h2⟩ := hret
    obtain ⟨w', st2, h3, h4⟩ := returnsPayload_allocateAndReturn bytes _ hlen hp1 hroom1
    rw [hfirst] at h1
    cases h1
    exact ⟨_, _, _, _, (hstatus _ _ _).trans hfirst, h2, (hstatus _ _ _).trans h3, h4⟩
  · rw [hstatus]
    exact hret
  · simp [statusOf, List.lookup]
  · simp [endpointsOf, List.lookup]

theorem status_idempotent_witness :
    (∃ w st1 w' st2,
      handle_status sampleJSON 0 0 (initState (fun _ => 0)) = Outcome.ret w st1 ∧
      readBytes st1.memory (w >>> 32) (w % 2 ^ 32) = asciiBytes
        "\x7b\"endpoints\":[\"/k8s\"],\"plugin\":\"k8s-get\",\"status\":\"healthy\",\"version\":\"1.0.1\"\x7d" ∧
      handle_status sampleJSON 65536 16 st1 = Outcome.ret w' st2 ∧
      readBytes st2.memory (w' >>> 32) (w' % 2 ^ 32) = asciiBytes
        "\x7b\"endpoints\":[\"/k8s\"],\"plugin\":\"k8s-get\",\"status\":\"healthy\",\"version\":\"1.0.1\"\x7d") ∧
    RespondsWith sampleJSON (handle_status sampleJSON 0 0 (initState (fun _ => 0)))
      (JSONValue.object [("status", JSONValue.string "healthy"),
        ("plugin", JSONValue.string "k8s-get"), ("version", JSONValue.string "1.0.1"),
        ("endpoints", JSONValue.array [JSONValue.string "/k8s"])]) :=
  ⟨(status_idempotent sampleJSON 0 0 65536 16 (initState (fun _ => 0))
      (asciiBytes
        "\x7b\"endpoints\":[\"/k8s\"],\"plugin\":\"k8s-get\",\"status\":\"healthy\",\"version\":\"1.0.1\"\x7d")
      (by rfl) (by decide) (by decide) (by decide)).1,
   (status_idempotent sampleJSON 0 0 65536 16 (initState (fun _ => 0))
      (asciiBytes
        "\x7b\"endpoints\":[\"/k8s\"],\"plugin\":\"k8s-get\",\"status\":\"healthy\",\"version\":\"1.0.1\"\x7d")
      (by rfl) (by decide) (by decide) (by decide)).2.1⟩

/-- C12: `deallocate(pointer, size)` leaves `memoryBase`, `memoryOffset` and
memory as they are, for every pointer, size and state; a following
`allocate`, `handle_k8s_get` or `handle_status`, and every following sequence
of calls, gives the result it gives without the `deallocate`. -/
theorem deallocate_no_effect (ptr size : Nat) (st : State) :
    deallocate ptr size st = st ∧
    (deallocate ptr size st).memoryBase = st.memoryBase ∧
    (deallocate ptr size st).memoryOffset = st.memoryOffset ∧
    (deallocate ptr size st).memory = st.memory ∧
    (∀ n, allocate n (deallocate ptr size st) = allocate n st) ∧
    (∀ lib inputPtr inputLen, handle_k8s_get lib inputPtr inputLen (deallocate ptr size st)
      = handle_k8s_get lib inputPtr inputLen st) ∧
    (∀ lib inputPtr inputLen, handle_status lib inputPtr inputLen (deallocate ptr size st)
      = handle_status lib inputPtr inputLen st) ∧
    (∀ lib calls, run lib (Call.deallocate ptr size :: calls) st = run lib calls st) :=
  ⟨rfl, rfl, rfl, rfl, fun _ => rfl, fun _ _ _ => rfl, fun _ _ _ => rfl, fun _ _ => rfl⟩

/-! ## Theorems on the frame of the handlers -/

/-- C14: a call of `handle_k8s_get` or `handle_status` that returns the packed
word of `(p, n)` from a state with arena `(base, off)` has `p = base + off`
(a `uint32` sum), has advanced the offset to `off + n` (a `uint32` sum) by one
reservation of the `n <= 1024` bytes of its response, has left `memoryBase`
as it was, and has changed no byte of memory outside `[p, p + n)`. -/
theorem handler_single_allocation (lib : JSONLib) (inputPtr inputLen : Nat)
    (st st' : State) (w : Nat)
    (h : handle_k8s_get lib inputPtr inputLen st = Outcome.ret w st' ∨
      handle_status lib inputPtr inputLen st = Outcome.ret w st') :
    w >>> 32 = (st.memoryBase + st.memoryOffset) % 2 ^ 32 ∧
    w % 2 ^ 32 ≤ 1024 ∧
    st'.memoryOffset = (st.memoryOffset + w % 2 ^ 32) % 2 ^ 32 ∧
    st'.memoryBase = st.memoryBase ∧
    (∀ a, a < w >>> 32 ∨ w >>> 32 + w % 2 ^ 32 ≤ a → st'.memory a = st.memory a) := by
  have hd : ∃ data, allocateAndReturn data st = Outcome.ret w st' := by
    rcases h with h | h
    · exact handle_k8s_get_ret lib inputPtr inputLen st st' w h
    · exact handle_status_ret lib inputPtr inputLen st st' w h
  obtain ⟨data, hd⟩ := hd
  obtain ⟨h1, h2, h3, h4, h5⟩ := allocateAndReturn_frame data st st' w hd
  exact ⟨h1, h2, h4, h3, h5⟩

theorem handler_single_allocation_witness :
    packWord 4096 53 >>> 32 = (4096 + 0) % 2 ^ 32 ∧
    packWord 4096 53 % 2 ^ 32 ≤ 1024 ∧
    (0 + 53) % 2 ^ 32 = (0 + packWord 4096 53 % 2 ^ 32) % 2 ^ 32 ∧
    (∀ a, a < packWord 4096 53 >>> 32 ∨ packWord 4096 53 >>> 32 + packWord 4096 53 % 2 ^ 32 ≤ a →
      writeBytes (stateWith (asciiBytes "\x7b\x7d")).memory 4096
          (encoded sampleJSON (errorResponse "Missing 'name' parameter")) a =
        (stateWith (asciiBytes "\x7b\x7d")).memory a) :=
  have h := handler_single_allocation sampleJSON 0x10000 2 (stateWith (asciiBytes "\x7b\x7d"))
    { memoryBase := 4096, memoryOffset := (0 + 53) % 2 ^ 32,
      memory := writeBytes (stateWith (asciiBytes "\x7b\x7d")).memory 4096
        (encoded sampleJSON (errorResponse "Missing 'name' parameter")) }
    (packWord 4096 53) (Or.inl (by rfl))
  ⟨h.1, h.2.1, h.2.2.1, h.2.2.2.2⟩

/-- C15 (as stated, does not hold): a payload of three bytes is not stored and
no word is returned in the state whose arena pointer is the last address
`2^32 - 1`, reached from a fresh instance by `allocate(4294963199)`: the bytes
do not fit below the end of the address space, and the call stops after the
arena offset has advanced by 3, with memory untouched. -/
theorem copy_stops_at_top :
    arenaPointer (stateAtTop []) = 2 ^ 32 - 1 ∧
    allocateAndReturn [104, 105, 33] (stateAtTop []) =
      Outcome.abort { memoryBase := 0x1000, memoryOffset := 4294963199 + 3,
                      memory := writeBytes (fun _ => 0) 0x10000 [] } ∧
    ∀ payload, ¬ ReturnsPayload (allocateAndReturn [104, 105, 33] (stateAtTop [])) payload := by
  have hcall : allocateAndReturn [104, 105, 33] (stateAtTop []) =
      Outcome.abort { memoryBase := 0x1000, memoryOffset := 4294963199 + 3,
                      memory := writeBytes (fun _ => 0) 0x10000 [] } := by
    rfl
  refine ⟨by decide, hcall, ?_⟩
  intro payload hr
  rw [hcall] at hr
  exact not_returnsPayload_abort _ _ hr

/-- C15: for a payload of at most 1024 bytes, in a state whose arena pointer
`ptr` is not 0 and where the payload ends within the 32-bit address space,
`allocateAndReturn` stores all bytes at `[ptr, ptr + len)` and returns the
packed word of `ptr` and `len`; for a longer payload, in every state, the call
stops in the panic of `dest[:size]` and returns nothing, with the arena offset
already advanced by the size and memory untouched. A payload is a Go string,
whose length is an `int` and so below `2^31`. -/
theorem copy_window_bound (data : List Byte) (st : State) (hlt : data.length < 2 ^ 31) :
    (data.length ≤ 1024 → arenaPointer st ≠ 0 → arenaPointer st + data.length ≤ 2 ^ 32 →
      allocateAndReturn data st =
        Outcome.ret (packWord ((st.memoryBase + st.memoryOffset) % 2 ^ 32) data.length)
          { memoryBase := st.memoryBase,
            memoryOffset := (st.memoryOffset + data.length) % 2 ^ 32,
            memory := writeBytes st.memory ((st.memoryBase + st.memoryOffset) % 2 ^ 32) data } ∧
      readBytes (writeBytes st.memory ((st.memoryBase + st.memoryOffset) % 2 ^ 32) data)
        ((st.memoryBase + st.memoryOffset) % 2 ^ 32) data.length = data ∧
      ReturnsPayload (allocateAndReturn data st) data) ∧
    (1024 < data.length →
      allocateAndReturn data st =
        Outcome.abort { memoryBase := st.memoryBase,
                        memoryOffset := (st.memoryOffset + data.length) % 2 ^ 32,
                        memory := st.memory }) := by
  have hmod : data.length % 2 ^ 32 = data.length := Nat.mod_eq_of_lt (by omega)
  constructor
  · intro hle hp hroom
    exact ⟨allocateAndReturn_of_le data st hle hp hroom, readBytes_writeBytes _ _ _,
      returnsPayload_allocateAndReturn data st hle hp hroom⟩
  · intro hgt
    rw [allocateAndReturn_of_gt data st (by omega)]
    simp only [allocate, hmod]

set_option maxRecDepth 100000 in
theorem copy_window_bound_witness :
    allocateAndReturn [104, 105, 33] (initState (fun _ => 0)) =
      Outcome.ret (packWord ((4096 + 0) % 2 ^ 32) 3)
        { memoryBase := 4096, memoryOffset := (0 + 3) % 2 ^ 32,
          memory := writeBytes (fun _ => 0) ((4096 + 0) % 2 ^ 32) [104, 105, 33] } ∧
    allocateAndReturn (List.replicate 1025 7) (initState (fun _ => 0)) =
      Outcome.abort { memoryBase := 4096,
                      memoryOffset := (0 + (List.replicate 1025 (7 : Byte)).length) % 2 ^ 32,
                      memory := fun _ => 0 } :=
  ⟨((copy_window_bound [104, 105, 33] (initState (fun _ => 0)) (by decide)).1 (by decide)
      (by decide) (by decide)).1,
   (copy_window_bound (List.replicate 1025 7) (initState (fun _ => 0))
      (by rw [List.length_replicate]; decide)).2 (by rw [List.length_replicate]; decide)⟩

/-! ## Theorems on runs of calls -/

/-- C16: for every sequence of `allocate`, `deallocate`, `handle_k8s_get` and
`handle_status` calls for which `memoryBase + memoryOffset` plus the sum of
all reserved sizes stays below `2^32`, the ranges handed out (by `allocate`
and by the handlers alike) are pairwise disjoint, are issued in non-decreasing
order, each one starting at or after the end of the one before, and lie at or
above `memoryBase`; the run writes no byte below the starting position of the
arena, so when the first call is an `allocate` the range it hands out is never
written by a later response. -/
theorem ranges_disjoint_without_wrap (lib : JSONLib) (calls : List Call) (st : State)
    (h : st.memoryBase + st.memoryOffset + reserved lib calls st < 2 ^ 32) :
    PairwiseDisjoint (run lib calls st).1 ∧
    Ascending (run lib calls st).1 ∧
    (∀ r ∈ (run lib calls st).1, st.memoryBase ≤ r.1) ∧
    (∀ a, a < st.memoryBase + st.memoryOffset →
      (run lib calls st).2.memory a = st.memory a) ∧
    (∀ size rest, calls = Call.allocate size :: rest →
      ∀ a, a < st.memoryBase + st.memoryOffset + size →
        (run lib calls st).2.memory a = st.memory a) := by
  obtain ⟨h1, h2, h3⟩ := run_ok lib calls st h
  refine ⟨?_, ?_, ?_, h3, ?_⟩
  · exact h2.imp (fun {r s} hrs => not_overlaps_of_le r s hrs)
  · exact List.Pairwise.chain' h2
  · intro r hr
    have := h1 r hr
    omega
  · intro size rest hc a ha
    subst hc
    simp only [run, reserved] at h ⊢
    have hoff : (st.memoryOffset + size) % 2 ^ 32 = st.memoryOffset + size :=
      Nat.mod_eq_of_lt (by omega)
    have hrest : (allocate size st).2.memoryBase + (allocate size st).2.memoryOffset +
        reserved lib rest (allocate size st).2 < 2 ^ 32 := by
      show st.memoryBase + (st.memoryOffset + size) % 2 ^ 32 +
        reserved lib rest (allocate size st).2 < 2 ^ 32
      rw [hoff]
      omega
    obtain ⟨_, _, h3'⟩ := run_ok lib rest (allocate size st).2 hrest
    have hlt : a < (allocate size st).2.memoryBase + (allocate size st).2.memoryOffset := by
      show a < st.memoryBase + (st.memoryOffset + size) % 2 ^ 32
      rw [hoff]
      omega
    exact h3' a hlt

set_option maxRecDepth 1000000 in
theorem ranges_disjoint_without_wrap_witness :
    (run sampleJSON
      [Call.allocate 16, Call.handle_status 0 0, Call.handle_k8s 0x10000 93,
        Call.deallocate 4096 16, Call.handle_k8s 0 5, Call.allocate 8]
      (stateWith (angleRequest 82))).1 = [(4096, 16), (4112, 78), (5224, 8)] ∧
    reserved sampleJSON
      [Call.allocate 16, Call.handle_status 0 0, Call.handle_k8s 0x10000 93,
        Call.deallocate 4096 16, Call.handle_k8s 0 5, Call.allocate 8]
      (stateWith (angleRequest 82)) = 1136 ∧
    PairwiseDisjoint (run sampleJSON
      [Call.allocate 16, Call.handle_status 0 0, Call.handle_k8s 0x10000 93,
        Call.deallocate 4096 16, Call.handle_k8s 0 5, Call.allocate 8]
      (stateWith (angleRequest 82))).1 ∧
    Ascending (run sampleJSON
      [Call.allocate 16, Call.handle_status 0 0, Call.handle_k8s 0x10000 93,
        Call.deallocate 4096 16, Call.handle_k8s 0 5, Call.allocate 8]
      (stateWith (angleRequest 82))).1 :=
  ⟨by decide, by decide,
   (ranges_disjoint_without_wrap sampleJSON
      [Call.allocate 16, Call.handle_status 0 0, Call.handle_k8s 0x10000 93,
        Call.deallocate 4096 16, Call.handle_k8s 0 5, Call.allocate 8]
      (stateWith (angleRequest 82)) (by decide)).1,
   (ranges_disjoint_without_wrap sampleJSON
      [Call.allocate 16, Call.handle_status 0 0, Call.handle_k8s 0x10000 93,
        Call.deallocate 4096 16, Call.handle_k8s 0 5, Call.allocate 8]
      (stateWith (angleRequest 82)) (by decide)).2.1⟩

end K8sGet
